import Mathlib

/-!
Verification development for the realtime CDC ingestion and projection engine.

The Go source is shallowly embedded: byte slices become `List Nat`, machine
integers become `Int`, `sql.Null*` wrappers become `Option`, wall-clock UTC
timestamps become `Int` nanoseconds, and the serving database becomes an
explicit `ServingState` record; SQL statements are translated to list
operations over that state.  Each section names the source file and function
it embeds.
-/

/-! ### LSN value type (internal/util/lsn.go)

Go `[]byte` LSNs are `List Nat` (one entry per byte).  `PadLSN` mirrors the
Go function exactly: inputs of length ≥ 10 keep only their last 10 bytes
(length exactly 10 is returned as a copy, which `List.drop 0` also models),
shorter inputs are left-padded with zero bytes.  `bytesCmp` is Go
`bytes.Compare`: lexicographic byte order, a strict prefix is smaller.
-/

def ZeroLSN : List Nat := List.replicate 10 0

def PadLSN (lsn : List Nat) : List Nat :=
  if 10 ≤ lsn.length then lsn.drop (lsn.length - 10)
  else List.replicate (10 - lsn.length) 0 ++ lsn

def IsZeroLSN (lsn : List Nat) : Bool :=
  if lsn.length = 0 then true else decide (PadLSN lsn = ZeroLSN)

def bytesCmp : List Nat → List Nat → Int
  | [], [] => 0
  | [], _ :: _ => -1
  | _ :: _, [] => 1
  | a :: as, b :: bs => if a < b then -1 else if b < a then 1 else bytesCmp as bs

def CompareLSN (a b : List Nat) : Int := bytesCmp (PadLSN a) (PadLSN b)

/-! ### Configuration loading (internal/config/config.go)

The process environment is a partial map `String → Option String`.  Lean's
built-in `String.trim`/`String.toLower` do not reduce in the kernel, so the
Go `strings.TrimSpace` / `strings.ToLower` (restricted to the ASCII
characters that occur in configuration values) are modelled over the
character list.  `atoi` is Go `strconv.Atoi`: optional sign, decimal digits,
failure on any other character and on values outside the signed 64-bit
range.  Durations are `Int` nanoseconds; the Go multiplications
`time.Duration(n) * time.Second` wrap at 64 bits, modelled by `int64Wrap`.
-/

abbrev Env := String → Option String

def isSpaceCh (c : Char) : Bool :=
  c = ' ' || c = '\t' || c = '\n' || c = '\r' || c = '\x0b' || c = '\x0c'

def goTrim (s : String) : String :=
  String.mk (((s.toList.dropWhile isSpaceCh).reverse.dropWhile isSpaceCh).reverse)

def lowerCh (c : Char) : Char :=
  if 'A' ≤ c ∧ c ≤ 'Z' then Char.ofNat (c.toNat + 32) else c

def goLower (s : String) : String := String.mk (s.toList.map lowerCh)

def digitsVal (cs : List Char) : Option Nat :=
  if cs = [] then none
  else if cs.all (fun c => c.isDigit) then
    some (cs.foldl (fun acc c => acc * 10 + (c.toNat - 48)) 0)
  else none

def int64Min : Int := -9223372036854775808

def int64Max : Int := 9223372036854775807

def atoiSigned (sign : Int) (cs : List Char) : Option Int :=
  match digitsVal cs with
  | none => none
  | some n =>
    if int64Min ≤ sign * (n : Int) ∧ sign * (n : Int) ≤ int64Max then some (sign * (n : Int))
    else none

def atoi (s : String) : Option Int :=
  match s.toList with
  | '+' :: cs => atoiSigned 1 cs
  | '-' :: cs => atoiSigned (-1) cs
  | cs => atoiSigned 1 cs

def int64Wrap (n : Int) : Int :=
  (n + 9223372036854775808) % 18446744073709551616 - 9223372036854775808

def nsPerSecond : Int := 1000000000

def nsPerMinute : Int := 60000000000

def getEnvStr (env : Env) (key : String) : String := (env key).getD ""

def getInt (env : Env) (key : String) (fallback : Int) : Int :=
  let v := goTrim (getEnvStr env key)
  if v = "" then fallback else (atoi v).getD fallback

def getBool (env : Env) (key : String) (fallback : Bool) : Bool :=
  let v := goTrim (goLower (getEnvStr env key))
  if v = "" then fallback
  else if v = "1" ∨ v = "true" ∨ v = "yes" ∨ v = "y" ∨ v = "on" then true
  else if v = "0" ∨ v = "false" ∨ v = "no" ∨ v = "n" ∨ v = "off" then false
  else fallback

def getString (env : Env) (key : String) (fallback : String) : String :=
  let v := goTrim (getEnvStr env key)
  if v = "" then fallback else v

structure Config where
  sourceDSN : String
  servingDSN : String
  pollInterval : Int
  cdcBatchMaxRows : Int
  projectionInterval : Int
  projectionRecomputeWindow : Int
  enableProjOrdersKPI : Bool
  enableProjOrdersLatest : Bool
  logLevel : String
  sourceName : String
deriving DecidableEq

def Load (env : Env) : Except String Config :=
  let cfg : Config := {
    sourceDSN := goTrim (getEnvStr env "SOURCE_DSN")
    servingDSN := goTrim (getEnvStr env "SERVING_DSN")
    pollInterval := int64Wrap (getInt env "POLL_INTERVAL_SECONDS" 5 * nsPerSecond)
    cdcBatchMaxRows := getInt env "CDC_BATCH_MAX_ROWS" 5000
    projectionInterval := int64Wrap (getInt env "PROJECTION_INTERVAL_SECONDS" 15 * nsPerSecond)
    projectionRecomputeWindow :=
      int64Wrap (getInt env "PROJECTION_RECOMPUTE_WINDOW_MINUTES" 15 * nsPerMinute)
    enableProjOrdersKPI := getBool env "ENABLE_PROJ_ORDERS_KPI" true
    enableProjOrdersLatest := getBool env "ENABLE_PROJ_ORDERS_LATEST" false
    logLevel := goLower (goTrim (getString env "LOG_LEVEL" "info"))
    sourceName := getString env "SOURCE_NAME" "source1" }
  if cfg.sourceDSN = "" then Except.error ("SOURCE_DSN is required")
  else if cfg.servingDSN = "" then Except.error ("SERVING_DSN is required")
  else if cfg.cdcBatchMaxRows ≤ 0 then Except.error ("CDC_BATCH_MAX_ROWS must be > 0")
  else if cfg.pollInterval ≤ 0 then Except.error ("POLL_INTERVAL_SECONDS must be > 0")
  else if cfg.projectionInterval ≤ 0 then Except.error ("PROJECTION_INTERVAL_SECONDS must be > 0")
  else if cfg.projectionRecomputeWindow ≤ 0 then
    Except.error ("PROJECTION_RECOMPUTE_WINDOW_MINUTES must be > 0")
  else Except.ok cfg

def envDefaultsOnly : Env := fun k =>
  if k = "SOURCE_DSN" then some ("sqlserver://src")
  else if k = "SERVING_DSN" then some ("sqlserver://serve")
  else none

def envBadPoll : Env := fun k =>
  if k = "SOURCE_DSN" then some ("sqlserver://src")
  else if k = "SERVING_DSN" then some ("sqlserver://serve")
  else if k = "POLL_INTERVAL_SECONDS" then some ("abc")
  else none

/-! ### Staged change rows (internal/staging/repository.go)

One structure per capture variant, mirroring `CustomerChange`, `OrderChange`
and `PaymentChange`.  `sql.Null*` fields become `Option`; `DOUBLE` money
amounts become exact `ℚ` (no claim depends on float rounding); timestamps
are `Int` UTC nanoseconds.
-/

structure CustomerChange where
  lsn : List Nat
  seqval : List Nat
  op : Nat
  customerId : Int
  segment : Option String
  isActive : Option Bool
  updatedAt : Option Int
deriving DecidableEq

structure OrderChange where
  lsn : List Nat
  seqval : List Nat
  op : Nat
  orderId : Int
  customerId : Option Int
  amount : Option ℚ
  status : Option String
  createdAt : Option Int
  updatedAt : Option Int
deriving DecidableEq

structure PaymentChange where
  lsn : List Nat
  seqval : List Nat
  op : Nat
  paymentId : Int
  orderId : Option Int
  paidAmount : Option ℚ
  paidAt : Option Int
deriving DecidableEq

/-! ### Idempotent staging inserts (Insert*Tx)

Each `Insert*Tx` runs its rows in input order through a conditional
`INSERT ... WHERE NOT EXISTS` keyed on `(lsn, seqval, business_key)`: the
stored row's raw bytes are compared against the padded incoming values, and
a newly stored row carries the padded `lsn`/`seqval`.
-/

def keyPresentG {α κ : Type} [DecidableEq κ] (storedKey incomingKey : α → κ)
    (tbl : List α) (r : α) : Bool :=
  tbl.any (fun s => decide (storedKey s = incomingKey r))

def insertIfAbsentG {α κ : Type} [DecidableEq κ] (storedKey incomingKey : α → κ)
    (store : α → α) (tbl : List α) (r : α) : List α :=
  if keyPresentG storedKey incomingKey tbl r then tbl else tbl ++ [store r]

def insertBatchG {α κ : Type} [DecidableEq κ] (storedKey incomingKey : α → κ) (store : α → α)
    (tbl : List α) (rows : List α) : List α :=
  rows.foldl (insertIfAbsentG storedKey incomingKey store) tbl

def storedCustomerKey (r : CustomerChange) : List Nat × List Nat × Int :=
  (r.lsn, r.seqval, r.customerId)

def incomingCustomerKey (r : CustomerChange) : List Nat × List Nat × Int :=
  (PadLSN r.lsn, PadLSN r.seqval, r.customerId)

def storeCustomerRow (r : CustomerChange) : CustomerChange :=
  { r with lsn := PadLSN r.lsn, seqval := PadLSN r.seqval }

def InsertCustomersTx (tbl rows : List CustomerChange) : List CustomerChange :=
  insertBatchG storedCustomerKey incomingCustomerKey storeCustomerRow tbl rows

def storedOrderKey (r : OrderChange) : List Nat × List Nat × Int :=
  (r.lsn, r.seqval, r.orderId)

def incomingOrderKey (r : OrderChange) : List Nat × List Nat × Int :=
  (PadLSN r.lsn, PadLSN r.seqval, r.orderId)

def storeOrderRow (r : OrderChange) : OrderChange :=
  { r with lsn := PadLSN r.lsn, seqval := PadLSN r.seqval }

def InsertOrdersTx (tbl rows : List OrderChange) : List OrderChange :=
  insertBatchG storedOrderKey incomingOrderKey storeOrderRow tbl rows

def storedPaymentKey (r : PaymentChange) : List Nat × List Nat × Int :=
  (r.lsn, r.seqval, r.paymentId)

def incomingPaymentKey (r : PaymentChange) : List Nat × List Nat × Int :=
  (PadLSN r.lsn, PadLSN r.seqval, r.paymentId)

def storePaymentRow (r : PaymentChange) : PaymentChange :=
  { r with lsn := PadLSN r.lsn, seqval := PadLSN r.seqval }

def InsertPaymentsTx (tbl rows : List PaymentChange) : List PaymentChange :=
  insertBatchG storedPaymentKey incomingPaymentKey storePaymentRow tbl rows

def orderRowA : OrderChange :=
  { lsn := [1], seqval := [1], op := 2, orderId := 100, customerId := some 1,
    amount := some 50, status := some ("open"), createdAt := some 0, updatedAt := some 0 }

/-! ### Collapse-to-latest transform
(internal/projections/kpi_worker.go `computeKPIWithDuckDB`,
internal/projections/orders_latest_worker.go `computeOrdersLatestWithDuckDB`)

Both transforms run the same SQL over the embedded engine:
`WHERE op IN (1, 2, 4)` excludes update-before rows, then
`ROW_NUMBER() OVER (PARTITION BY business_key ORDER BY lsn DESC, seqval
DESC)` ranks and `rn = 1 AND op <> 1` selects.  The rows were inserted into
the engine with `PadLSN` applied to `lsn` and `seqval` (the same padding the
staging insert applies, so `store*Row` is reused), and `BLOB` comparison is
bytewise, i.e. `bytesCmp` on the padded 10-byte values with `seqval` as the
tie-break (`pairCmp`).  `pickLatest` is the per-partition argmax, which is
the unique rank-1 row whenever the sort keys are distinct within a
partition (the staging uniqueness invariant).
-/

def includedOp (op : Nat) : Bool := decide (op = 1) || decide (op = 2) || decide (op = 4)

def pairCmp (a b : (List Nat) × (List Nat)) : Int :=
  if bytesCmp a.1 b.1 = 0 then bytesCmp a.2 b.2 else bytesCmp a.1 b.1

def pickLatest {α : Type} (ord : α → (List Nat) × (List Nat)) : List α → Option α
  | [] => none
  | r :: rest =>
    match pickLatest ord rest with
    | none => some r
    | some m => if 0 < pairCmp (ord r) (ord m) then some r else some m

def collapsePick {α : Type} (key : α → Int) (ord : α → (List Nat) × (List Nat))
    (opOf : α → Nat) (flt : List α) (k : Int) : Option α :=
  match pickLatest ord (flt.filter (fun r => decide (key r = k))) with
  | none => none
  | some m => if opOf m = 1 then none else some m

def collapseLatest {α : Type} (key : α → Int) (ord : α → (List Nat) × (List Nat))
    (opOf : α → Nat) (rows : List α) : List α :=
  let flt := rows.filter (fun r => includedOp (opOf r))
  ((flt.map key).dedup).filterMap (collapsePick key ord opOf flt)

def orderOrd (r : OrderChange) : (List Nat) × (List Nat) := (r.lsn, r.seqval)

def customerOrd (r : CustomerChange) : (List Nat) × (List Nat) := (r.lsn, r.seqval)

def paymentOrd (r : PaymentChange) : (List Nat) × (List Nat) := (r.lsn, r.seqval)

def kpiOrdersLatestAll (orders : List OrderChange) : List OrderChange :=
  collapseLatest (fun r => r.orderId) orderOrd (fun r => r.op) (orders.map storeOrderRow)

def kpiCustomersLatestAll (customers : List CustomerChange) : List CustomerChange :=
  collapseLatest (fun r => r.customerId) customerOrd (fun r => r.op)
    (customers.map storeCustomerRow)

def kpiPaymentsLatestAll (payments : List PaymentChange) : List PaymentChange :=
  collapseLatest (fun r => r.paymentId) paymentOrd (fun r => r.op)
    (payments.map storePaymentRow)

def latestWorkerOrdersLatest (orders : List OrderChange) : List OrderChange :=
  collapseLatest (fun r => r.orderId) orderOrd (fun r => r.op) (orders.map storeOrderRow)

def latestWorkerCustomersLatest (customers : List CustomerChange) : List CustomerChange :=
  collapseLatest (fun r => r.customerId) customerOrd (fun r => r.op)
    (customers.map storeCustomerRow)

/-- The staging uniqueness invariant on the transform's input: distinct rows
of the same business key have distinct `(lsn, seqval)` sort keys. -/
def KeyDistinct {α : Type} (key : α → Int) (ord : α → (List Nat) × (List Nat))
    (rows : List α) : Prop :=
  ∀ r ∈ rows, ∀ s ∈ rows, key r = key s → ord r = ord s → r = s

/-- What C1 asserts of a collapse output `L` for input `rows`: every output
row is an input row with an allowed non-delete operation; a key with no
rankable rows contributes nothing; and for each key whose rankable rows are
non-empty with maximum `m`, the key contributes nothing if `m` is a delete
and exactly the row `m` otherwise. -/
def CollapseSpec {α : Type} (key : α → Int) (ord : α → (List Nat) × (List Nat))
    (opOf : α → Nat) (rows L : List α) : Prop :=
  (∀ r ∈ L, r ∈ rows ∧ includedOp (opOf r) = true ∧ opOf r ≠ 1) ∧
  (∀ k : Int, (∀ r ∈ rows, key r = k → includedOp (opOf r) = false) → ∀ r ∈ L, key r ≠ k) ∧
  (∀ m ∈ rows, includedOp (opOf m) = true →
    (∀ s ∈ rows, key s = key m → includedOp (opOf s) = true → pairCmp (ord s) (ord m) ≤ 0) →
    (opOf m = 1 → ∀ r ∈ L, key r ≠ key m) ∧
    (opOf m ≠ 1 → L.filter (fun r => decide (key r = key m)) = [m]))

def ordersW : List OrderChange :=
  [{ lsn := [1], seqval := [1], op := 2, orderId := 100, customerId := some 1,
     amount := some 50, status := some ("open"), createdAt := some 0, updatedAt := some 0 },
   { lsn := [2], seqval := [1], op := 4, orderId := 100, customerId := some 1,
     amount := some 70, status := some ("open"), createdAt := some 0, updatedAt := some 60 },
   { lsn := [3], seqval := [1], op := 1, orderId := 100, customerId := some 1,
     amount := some 70, status := some ("open"), createdAt := some 0, updatedAt := some 90 },
   { lsn := [3], seqval := [2], op := 2, orderId := 200, customerId := none,
     amount := some 30, status := some ("open"), createdAt := some 120, updatedAt := some 120 }]

/-! ### KPI transform (internal/projections/kpi_worker.go `computeKPIWithDuckDB`)

Timestamps are `Int` UTC nanoseconds; `date_trunc('minute', ·)` and the
worker's `floorToMinute` floor to a multiple of a minute (Lean's `Int`
division is floor division for a positive divisor).  SQL `WHERE ts >= x`
drops `NULL` timestamps.  The left joins enumerate all matches (an
unmatched row keeps a `NULL` segment, which `COALESCE` turns into
`"UNKNOWN"`); `COUNT(DISTINCT order_id)` deduplicates; the full outer join
takes the union of group keys with `COALESCE 0` for missing sides; the
result is ordered by `(minute_bucket, segment)` (binary string order).
-/

structure KPIOutputRow where
  minuteBucket : Int
  segment : String
  ordersCount : Int
  ordersAmountSum : ℚ
  paidAmountSum : ℚ
deriving DecidableEq

structure LatestOrderOutputRow where
  orderId : Int
  customerId : Option Int
  segment : Option String
  amount : Option ℚ
  status : Option String
  createdAt : Option Int
  updatedAt : Option Int
  sourceLSN : List Nat
deriving DecidableEq

def floorToMinute (t : Int) : Int := nsPerMinute * (t / nsPerMinute)

def dateTruncMinute (t : Int) : Int := nsPerMinute * (t / nsPerMinute)

structure EnrichedOrder where
  minuteBucket : Int
  segment : String
  orderId : Int
  amount : ℚ
deriving DecidableEq

structure EnrichedPayment where
  minuteBucket : Int
  segment : String
  paidAmount : ℚ
deriving DecidableEq

def segmentsFor (custs : List CustomerChange) (cid : Option Int) : List (Option String) :=
  let ms := custs.filter (fun c => decide (cid = some c.customerId))
  if ms.isEmpty then [none] else ms.map (fun c => c.segment)

def ordersEnriched (windowStart : Int) (ordersL : List OrderChange)
    (custsL : List CustomerChange) : List EnrichedOrder :=
  ordersL.flatMap (fun o =>
    match o.createdAt with
    | none => []
    | some t =>
      if windowStart ≤ t then
        (segmentsFor custsL o.customerId).map (fun seg =>
          { minuteBucket := dateTruncMinute t, segment := seg.getD ("UNKNOWN"),
            orderId := o.orderId, amount := o.amount.getD 0 })
      else [])

def paymentsEnriched (windowStart : Int) (paymentsL : List PaymentChange)
    (ordersL : List OrderChange) (custsL : List CustomerChange) : List EnrichedPayment :=
  paymentsL.flatMap (fun p =>
    match p.paidAt with
    | none => []
    | some t =>
      if windowStart ≤ t then
        (ordersL.filter (fun o => decide (p.orderId = some o.orderId))).flatMap (fun o =>
          (segmentsFor custsL o.customerId).map (fun seg =>
            { minuteBucket := dateTruncMinute t, segment := seg.getD ("UNKNOWN"),
              paidAmount := p.paidAmount.getD 0 }))
      else [])

structure KPIOrdersAggRow where
  minuteBucket : Int
  segment : String
  ordersCount : Int
  amountSum : ℚ
deriving DecidableEq

structure KPIPaymentsAggRow where
  minuteBucket : Int
  segment : String
  paidSum : ℚ
deriving DecidableEq

def kpiOrdersAgg (eo : List EnrichedOrder) : List KPIOrdersAggRow :=
  ((eo.map (fun e => (e.minuteBucket, e.segment))).dedup).map (fun bs =>
    let grp := eo.filter (fun e => decide ((e.minuteBucket, e.segment) = bs))
    { minuteBucket := bs.1, segment := bs.2,
      ordersCount := (((grp.map (fun e => e.orderId)).dedup).length : Int),
      amountSum := (grp.map (fun e => e.amount)).sum })

def kpiPaymentsAgg (ep : List EnrichedPayment) : List KPIPaymentsAggRow :=
  ((ep.map (fun e => (e.minuteBucket, e.segment))).dedup).map (fun bs =>
    { minuteBucket := bs.1, segment := bs.2,
      paidSum := ((ep.filter (fun e => decide ((e.minuteBucket, e.segment) = bs))).map
        (fun e => e.paidAmount)).sum })

def kpiFinal (oa : List KPIOrdersAggRow) (pa : List KPIPaymentsAggRow) : List KPIOutputRow :=
  let keys := ((oa.map (fun r => (r.minuteBucket, r.segment))) ++
    (pa.map (fun r => (r.minuteBucket, r.segment)))).dedup
  keys.map (fun bs =>
    let o := oa.find? (fun r => decide ((r.minuteBucket, r.segment) = bs))
    let p := pa.find? (fun r => decide ((r.minuteBucket, r.segment) = bs))
    { minuteBucket := bs.1, segment := bs.2,
      ordersCount := (o.map (fun r => r.ordersCount)).getD 0,
      ordersAmountSum := (o.map (fun r => r.amountSum)).getD 0,
      paidAmountSum := (p.map (fun r => r.paidSum)).getD 0 })

def insSortedBy {α : Type} (le : α → α → Bool) (x : α) : List α → List α
  | [] => [x]
  | y :: ys => if le x y then x :: y :: ys else y :: insSortedBy le x ys

def sortByLe {α : Type} (le : α → α → Bool) (l : List α) : List α :=
  l.foldr (insSortedBy le) []

def strLeChars : List Char → List Char → Bool
  | [], _ => true
  | _ :: _, [] => false
  | x :: xs, y :: ys =>
    if x.toNat < y.toNat then true
    else if y.toNat < x.toNat then false
    else strLeChars xs ys

def strLeB (a b : String) : Bool := strLeChars a.toList b.toList

def kpiRowLe (a b : KPIOutputRow) : Bool :=
  if a.minuteBucket < b.minuteBucket then true
  else if b.minuteBucket < a.minuteBucket then false
  else strLeB a.segment b.segment

def computeKPIWithDuckDB (windowStart : Int) (orders : List OrderChange)
    (customers : List CustomerChange) (payments : List PaymentChange) : List KPIOutputRow :=
  let ordersL := kpiOrdersLatestAll orders
  let custsL := kpiCustomersLatestAll customers
  let paymentsL := kpiPaymentsLatestAll payments
  let eo := ordersEnriched windowStart ordersL custsL
  let ep := paymentsEnriched windowStart paymentsL ordersL custsL
  sortByLe kpiRowLe (kpiFinal (kpiOrdersAgg eo) (kpiPaymentsAgg ep))

/-! ### Latest-state transform (`computeOrdersLatestWithDuckDB`) -/

def latestOutputRow (o : OrderChange) (seg : Option String) : LatestOrderOutputRow :=
  { orderId := o.orderId, customerId := o.customerId, segment := seg, amount := o.amount,
    status := o.status, createdAt := o.createdAt, updatedAt := o.updatedAt,
    sourceLSN := PadLSN o.lsn }

def latestRowLe (a b : LatestOrderOutputRow) : Bool := decide (a.orderId ≤ b.orderId)

def computeOrdersLatestWithDuckDB (orders : List OrderChange)
    (customers : List CustomerChange) : List LatestOrderOutputRow :=
  let ordersL := latestWorkerOrdersLatest orders
  let custsL := latestWorkerCustomersLatest customers
  sortByLe latestRowLe (ordersL.flatMap (fun o =>
    (segmentsFor custsL o.customerId).map (fun seg => latestOutputRow o seg)))

/-! ### Serving store state and metadata repository
(internal/metadata/repository.go)

The serving database is a record of its tables.  Watermarks and checkpoints
are association lists keyed by `(source_name, capture_instance)` /
`(projection_name, capture_instance)`; SQL `UPDATE` maps over all matching
entries (and changes nothing when no row matches); `SELECT MIN(lsn)` is
`minBytes` over the matching rows' stored binary values; the metadata
upsert updates when a row exists and appends otherwise.  The wall-clock
columns (`updated_at`, `as_of_time`, `built_at`) carry no claim content and
are omitted from the model.
-/

structure ProjMetadata where
  asOfLSN : Option (List Nat)
  status : String
  lastError : Option String
deriving DecidableEq

structure ServingState where
  stgCustomers : List CustomerChange
  stgOrders : List OrderChange
  stgPayments : List PaymentChange
  watermarks : List ((String × String) × List Nat)
  checkpoints : List ((String × String) × List Nat)
  projKPI : List KPIOutputRow
  projOrdersLatest : List LatestOrderOutputRow
  metadata : List (String × ProjMetadata)
deriving DecidableEq

def findLSN (tbl : List ((String × String) × List Nat)) (k : String × String) :
    Option (List Nat) :=
  (tbl.find? (fun e => decide (e.1 = k))).map (fun e => e.2)

def updateLSNTx (tbl : List ((String × String) × List Nat)) (k : String × String)
    (lsn : List Nat) : List ((String × String) × List Nat) :=
  tbl.map (fun e => if e.1 = k then (e.1, PadLSN lsn) else e)

def GetIngestionWatermark (tbl : List ((String × String) × List Nat))
    (source capture : String) : List Nat :=
  match findLSN tbl (source, capture) with
  | none => ZeroLSN
  | some l => PadLSN l

def minBytes : List (List Nat) → Option (List Nat)
  | [] => none
  | v :: vs =>
    match minBytes vs with
    | none => some v
    | some m => if bytesCmp v m ≤ 0 then some v else some m

def GetMinIngestionWatermark (tbl : List ((String × String) × List Nat)) (source : String)
    (captures : List String) : Except String (List Nat) :=
  if captures = [] then Except.error ("captures cannot be empty")
  else
    match minBytes ((tbl.filter (fun e =>
        decide (e.1.1 = source) && decide (e.1.2 ∈ captures))).map (fun e => e.2)) with
    | none => Except.ok ZeroLSN
    | some m => Except.ok (if m = [] then ZeroLSN else PadLSN m)

def GetProjectionCheckpoints (tbl : List ((String × String) × List Nat))
    (projection : String) (captures : List String) : List (String × List Nat) :=
  captures.map (fun c =>
    (c, match findLSN tbl (projection, c) with
        | none => ZeroLSN
        | some l => PadLSN l))

def nullableErrString (v : Option String) : Option String :=
  match v with
  | none => none
  | some s => if goTrim s = "" then none else some s

def UpsertProjectionMetadataTx (tbl : List (String × ProjMetadata)) (projection : String)
    (cutoffLSN : List Nat) (status : String) (lastError : Option String) :
    List (String × ProjMetadata) :=
  let meta : ProjMetadata :=
    { asOfLSN := some (PadLSN cutoffLSN), status := status,
      lastError := nullableErrString lastError }
  if tbl.any (fun e => decide (e.1 = projection)) then
    tbl.map (fun e => if e.1 = projection then (e.1, meta) else e)
  else tbl ++ [(projection, meta)]

def SortedKeys (cps : List (String × List Nat)) : List String :=
  sortByLe strLeB (cps.map (fun e => e.1))

def cpsLookup (cps : List (String × List Nat)) (c : String) : List Nat :=
  ((cps.find? (fun e => decide (e.1 = c))).map (fun e => e.2)).getD ZeroLSN

/-! ### Staging loads and delta checks (internal/staging/repository.go) -/

def orderLoadLe (a b : OrderChange) : Bool :=
  decide (pairCmp (a.lsn, a.seqval) (b.lsn, b.seqval) ≤ 0)

def customerLoadLe (a b : CustomerChange) : Bool :=
  decide (pairCmp (a.lsn, a.seqval) (b.lsn, b.seqval) ≤ 0)

def paymentLoadLe (a b : PaymentChange) : Bool :=
  decide (pairCmp (a.lsn, a.seqval) (b.lsn, b.seqval) ≤ 0)

def LoadOrdersAll (st : ServingState) : List OrderChange := sortByLe orderLoadLe st.stgOrders

def LoadCustomersAll (st : ServingState) : List CustomerChange :=
  sortByLe customerLoadLe st.stgCustomers

def LoadPaymentsWindow (st : ServingState) (windowStart : Int) : List PaymentChange :=
  sortByLe paymentLoadLe (st.stgPayments.filter (fun p =>
    match p.paidAt with
    | none => false
    | some t => decide (windowStart ≤ t)))

def stagingLSNs (st : ServingState) (table : String) : Option (List (List Nat)) :=
  if table = "dbo.stg_cdc_customers" then some (st.stgCustomers.map (fun r => r.lsn))
  else if table = "dbo.stg_cdc_orders" then some (st.stgOrders.map (fun r => r.lsn))
  else if table = "dbo.stg_cdc_payments" then some (st.stgPayments.map (fun r => r.lsn))
  else none

def HasDeltas (st : ServingState) (table : String) (fromLSN toLSN : List Nat) :
    Except String Bool :=
  if goTrim table = "" then Except.error ("table name is required")
  else
    match stagingLSNs st table with
    | none => Except.error ("unknown table")
    | some lsns =>
      Except.ok (lsns.any (fun l =>
        decide (0 < bytesCmp l (PadLSN fromLSN)) && decide (bytesCmp l (PadLSN toLSN) ≤ 0)))

/-! ### Ingestor persistence (internal/cdc/ingestor.go)

A `persist*` call is one serving-side transaction: it builds the
transaction state (idempotent staging insert, then watermark `UPDATE` to
the caller's `endLSN = rows[last].lsn`) and publishes it only at commit;
`FailPoint` says which step, if any, fails, and any failure rolls back to
the pre-transaction state.
-/

inductive FailPoint
  | noFail
  | beginFail
  | insertFail
  | watermarkFail
  | commitFail
deriving DecidableEq

def persistCustomers (source : String) (st : ServingState) (rows : List CustomerChange)
    (endLSN : List Nat) (fp : FailPoint) : ServingState × Bool :=
  if fp = FailPoint.beginFail then (st, false)
  else
    let tx1 := { st with stgCustomers := InsertCustomersTx st.stgCustomers rows }
    if fp = FailPoint.insertFail then (st, false)
    else
      let tx2 := { tx1 with
        watermarks := updateLSNTx tx1.watermarks (source, "dbo_customers") endLSN }
      if fp = FailPoint.watermarkFail then (st, false)
      else if fp = FailPoint.commitFail then (st, false)
      else (tx2, true)

def persistOrders (source : String) (st : ServingState) (rows : List OrderChange)
    (endLSN : List Nat) (fp : FailPoint) : ServingState × Bool :=
  if fp = FailPoint.beginFail then (st, false)
  else
    let tx1 := { st with stgOrders := InsertOrdersTx st.stgOrders rows }
    if fp = FailPoint.insertFail then (st, false)
    else
      let tx2 := { tx1 with
        watermarks := updateLSNTx tx1.watermarks (source, "dbo_orders") endLSN }
      if fp = FailPoint.watermarkFail then (st, false)
      else if fp = FailPoint.commitFail then (st, false)
      else (tx2, true)

def persistPayments (source : String) (st : ServingState) (rows : List PaymentChange)
    (endLSN : List Nat) (fp : FailPoint) : ServingState × Bool :=
  if fp = FailPoint.beginFail then (st, false)
  else
    let tx1 := { st with stgPayments := InsertPaymentsTx st.stgPayments rows }
    if fp = FailPoint.insertFail then (st, false)
    else
      let tx2 := { tx1 with
        watermarks := updateLSNTx tx1.watermarks (source, "dbo_payments") endLSN }
      if fp = FailPoint.watermarkFail then (st, false)
      else if fp = FailPoint.commitFail then (st, false)
      else (tx2, true)

def computeFromLSN (increment : List Nat → List Nat) (lastLSN minLSN : List Nat) : List Nat :=
  if IsZeroLSN lastLSN || decide (CompareLSN lastLSN minLSN < 0) then PadLSN minLSN
  else PadLSN (increment (PadLSN lastLSN))

/-! ### Projection workers (kpi_worker.go `KPIWorker.runOnce`,
orders_latest_worker.go `OrdersLatestWorker.runOnce`)

One successful cycle: cutoff = min ingestion watermark over the bound
captures (skip when zero), short-circuit on `has_deltas`, compute the
transform, then in one transaction replace the projection rows (the KPI
worker deletes only `minute_bucket >= window_start`; the latest worker
deletes everything), advance every bound capture's checkpoint to the
cutoff, and upsert metadata `(as_of_lsn = cutoff, status = OK,
last_error = NULL)`.  Any error leaves the state unchanged.
-/

def ProjectionOrdersKPI : String := "orders_kpi_by_minute_segment"

def ProjectionOrdersLatest : String := "orders_latest"

def kpiCaptures : List String := ["dbo_customers", "dbo_orders", "dbo_payments"]

def latestCaptures : List String := ["dbo_customers", "dbo_orders"]

def stagingTableForCapture (c : String) : Option String :=
  if c = "dbo_customers" then some ("dbo.stg_cdc_customers")
  else if c = "dbo_orders" then some ("dbo.stg_cdc_orders")
  else if c = "dbo_payments" then some ("dbo.stg_cdc_payments")
  else none

def hasDeltasSinceCheckpoint (st : ServingState) :
    List (String × List Nat) → List Nat → Except String Bool
  | [], _ => Except.ok false
  | (c, fromL) :: rest, cutoff =>
    match stagingTableForCapture c with
    | none => hasDeltasSinceCheckpoint st rest cutoff
    | some table =>
      match HasDeltas st table fromL cutoff with
      | Except.error e => Except.error e
      | Except.ok true => Except.ok true
      | Except.ok false => hasDeltasSinceCheckpoint st rest cutoff

def ckFoldStep (name : String) (cutoff : List Nat) (s : ServingState) (c : String) :
    ServingState :=
  { s with checkpoints := updateLSNTx s.checkpoints (name, c) cutoff }

def kpiApplyCommit (st : ServingState) (cps : List (String × List Nat)) (cutoff : List Nat)
    (windowStart : Int) : ServingState :=
  let kpiRows := computeKPIWithDuckDB windowStart (LoadOrdersAll st) (LoadCustomersAll st)
    (LoadPaymentsWindow st windowStart)
  let st1 := { st with
    projKPI := st.projKPI.filter (fun (r : KPIOutputRow) => decide (r.minuteBucket < windowStart))
      ++ kpiRows }
  let st2 := (SortedKeys cps).foldl (ckFoldStep ProjectionOrdersKPI cutoff) st1
  { st2 with
    metadata := UpsertProjectionMetadataTx st2.metadata ProjectionOrdersKPI cutoff ("OK") none }

def kpiRunOnce (source : String) (now recomputeWindow : Int) (st : ServingState) :
    ServingState :=
  match GetMinIngestionWatermark st.watermarks source kpiCaptures with
  | Except.error _ => st
  | Except.ok cutoff =>
    if IsZeroLSN cutoff then st
    else
      let cps := GetProjectionCheckpoints st.checkpoints ProjectionOrdersKPI kpiCaptures
      match hasDeltasSinceCheckpoint st cps cutoff with
      | Except.error _ => st
      | Except.ok hasDelta =>
        if hasDelta then kpiApplyCommit st cps cutoff (floorToMinute now - recomputeWindow)
        else st

def latestApplyCommit (st : ServingState) (cps : List (String × List Nat))
    (cutoff : List Nat) : ServingState :=
  let latestRows := computeOrdersLatestWithDuckDB (LoadOrdersAll st) (LoadCustomersAll st)
  let st1 := { st with projOrdersLatest := latestRows }
  let st2 := (SortedKeys cps).foldl (ckFoldStep ProjectionOrdersLatest cutoff) st1
  { st2 with
    metadata := UpsertProjectionMetadataTx st2.metadata ProjectionOrdersLatest cutoff ("OK") none }

def ordersLatestRunOnce (source : String) (st : ServingState) : ServingState :=
  match GetMinIngestionWatermark st.watermarks source latestCaptures with
  | Except.error _ => st
  | Except.ok cutoff =>
    if IsZeroLSN cutoff then st
    else
      let cps := GetProjectionCheckpoints st.checkpoints ProjectionOrdersLatest latestCaptures
      match HasDeltas st ("dbo.stg_cdc_orders") (cpsLookup cps "dbo_orders") cutoff with
      | Except.error _ => st
      | Except.ok ordersDelta =>
        match HasDeltas st ("dbo.stg_cdc_customers") (cpsLookup cps "dbo_customers") cutoff with
        | Except.error _ => st
        | Except.ok customersDelta =>
          if !ordersDelta && !customersDelta then st
          else latestApplyCommit st cps cutoff

/-- What C3 asserts of a successful KPI cycle from `st` to `st'`: the
projection holds a row iff it is a kept old row (`minute_bucket <
window_start`) or a freshly computed row; every bound capture's checkpoint
equals the cutoff; metadata reads `(as_of_lsn = cutoff, OK, no error)`; and
nothing else in the serving store changed. -/
def KPICommitSpec (st : ServingState) (now recomputeWindow : Int) (cutoff : List Nat)
    (st' : ServingState) : Prop :=
  let windowStart := floorToMinute now - recomputeWindow
  let kpiRows := computeKPIWithDuckDB windowStart (LoadOrdersAll st) (LoadCustomersAll st)
    (LoadPaymentsWindow st windowStart)
  (∀ r, r ∈ st'.projKPI ↔ ((r ∈ st.projKPI ∧ r.minuteBucket < windowStart) ∨ r ∈ kpiRows)) ∧
  (∀ c ∈ kpiCaptures, findLSN st'.checkpoints (ProjectionOrdersKPI, c) = some (PadLSN cutoff)) ∧
  (st'.metadata.find? (fun e => decide (e.1 = ProjectionOrdersKPI))).map (fun e => e.2) =
    some { asOfLSN := some (PadLSN cutoff), status := "OK", lastError := none } ∧
  st'.stgCustomers = st.stgCustomers ∧ st'.stgOrders = st.stgOrders ∧
  st'.stgPayments = st.stgPayments ∧ st'.watermarks = st.watermarks ∧
  st'.projOrdersLatest = st.projOrdersLatest

/-- Watermark state in which a projection worker's bound captures count as
never ingested: either no watermark row matches any bound capture, or some
matching row stores an empty value. -/
def WatermarksNeverIngested (tbl : List ((String × String) × List Nat)) (source : String)
    (captures : List String) : Prop :=
  (tbl.filter (fun e => decide (e.1.1 = source) && decide (e.1.2 ∈ captures)) = []) ∨
  (∃ e ∈ tbl, e.1.1 = source ∧ e.1.2 ∈ captures ∧ e.2 = [])

def stC2W : ServingState :=
  { stgCustomers := [], stgOrders := [], stgPayments := [],
    watermarks := [(("source1", "dbo_orders"), ZeroLSN)],
    checkpoints := [], projKPI := [], projOrdersLatest := [], metadata := [] }

def stC3W : ServingState :=
  { stgCustomers := [], stgOrders := [storeOrderRow orderRowA], stgPayments := [],
    watermarks := [(("source1", "dbo_customers"), PadLSN [1]),
                   (("source1", "dbo_orders"), PadLSN [1]),
                   (("source1", "dbo_payments"), PadLSN [1])],
    checkpoints := [((ProjectionOrdersKPI, "dbo_customers"), ZeroLSN),
                    ((ProjectionOrdersKPI, "dbo_orders"), ZeroLSN),
                    ((ProjectionOrdersKPI, "dbo_payments"), ZeroLSN)],
    projKPI := [{ minuteBucket := -18000000000000, segment := "SMB", ordersCount := 5,
                  ordersAmountSum := 100, paidAmountSum := 0 },
                { minuteBucket := 0, segment := "SMB", ordersCount := 1,
                  ordersAmountSum := 10, paidAmountSum := 0 }],
    projOrdersLatest := [],
    metadata := [(ProjectionOrdersKPI,
                  { asOfLSN := none, status := "INIT", lastError := none })] }

def stC9W : ServingState :=
  { stgCustomers := [], stgOrders := [], stgPayments := [],
    watermarks := [(("source1", "dbo_orders"), [])],
    checkpoints := [], projKPI := [], projOrdersLatest := [], metadata := [] }

/-! ### Theorems -/

theorem PadLSN_length (l : List Nat) : (PadLSN l).length = 10 := by
  unfold PadLSN
  split
  · simp only [List.length_drop]
    omega
  · simp only [List.length_append, List.length_replicate]
    omega

theorem PadLSN_of_length_ten (l : List Nat) (h : l.length = 10) : PadLSN l = l := by
  unfold PadLSN
  rw [h]
  simp

theorem PadLSN_idem (l : List Nat) : PadLSN (PadLSN l) = PadLSN l :=
  PadLSN_of_length_ten _ (PadLSN_length l)

theorem bytesCmp_range (a b : List Nat) :
    bytesCmp a b = -1 ∨ bytesCmp a b = 0 ∨ bytesCmp a b = 1 := by
  induction a generalizing b with
  | nil => cases b <;> simp [bytesCmp]
  | cons x xs ih =>
    cases b with
    | nil => simp [bytesCmp]
    | cons y ys =>
      simp only [bytesCmp]
      split
      · exact Or.inl rfl
      · split
        · exact Or.inr (Or.inr rfl)
        · exact ih ys

/-- C5: LSN padding laws.  `PadLSN` is idempotent; `CompareLSN` is invariant
under pre-padding both arguments; inputs shorter than 10 bytes are
left-padded with zero bytes to exactly 10 bytes; `CompareLSN` is the
unsigned lexicographic byte comparison (`bytesCmp`) of the padded values and
always returns a value in `{-1, 0, +1}`. -/
theorem lsn_padding_laws :
    (∀ x : List Nat, PadLSN (PadLSN x) = PadLSN x) ∧
    (∀ a b : List Nat, CompareLSN (PadLSN a) (PadLSN b) = CompareLSN a b) ∧
    (∀ x : List Nat, x.length < 10 →
      PadLSN x = List.replicate (10 - x.length) 0 ++ x ∧ (PadLSN x).length = 10) ∧
    (∀ a b : List Nat, CompareLSN a b = bytesCmp (PadLSN a) (PadLSN b)) ∧
    (∀ a b : List Nat, CompareLSN a b = -1 ∨ CompareLSN a b = 0 ∨ CompareLSN a b = 1) := by
  refine ⟨PadLSN_idem, ?_, ?_, fun a b => rfl, fun a b => bytesCmp_range _ _⟩
  · intro a b
    unfold CompareLSN
    rw [PadLSN_idem, PadLSN_idem]
  · intro x hx
    refine ⟨?_, PadLSN_length x⟩
    unfold PadLSN
    rw [if_neg (by omega)]

/-- C5 witness: the padding laws evaluated at concrete inputs. -/
theorem lsn_padding_laws_witness :
    PadLSN (PadLSN [1, 2]) = PadLSN [1, 2] ∧
    CompareLSN (PadLSN [3]) (PadLSN [0, 4]) = CompareLSN [3] [0, 4] ∧
    (PadLSN [1, 2] = List.replicate (10 - ([1, 2] : List Nat).length) 0 ++ [1, 2] ∧
      (PadLSN [1, 2]).length = 10) :=
  ⟨lsn_padding_laws.1 [1, 2], lsn_padding_laws.2.1 [3] [0, 4],
    lsn_padding_laws.2.2.1 [1, 2] (by decide)⟩

/-- C8: `PadLSN` always returns exactly 10 bytes and, for inputs longer than
10 bytes, returns the input's last 10 bytes (dropping the leading high-order
bytes) instead of rejecting the over-long input. -/
theorem padlsn_truncates_long_inputs :
    (∀ l : List Nat, (PadLSN l).length = 10) ∧
    (∀ l : List Nat, 10 < l.length → PadLSN l = l.drop (l.length - 10)) := by
  refine ⟨PadLSN_length, fun l hl => ?_⟩
  unfold PadLSN
  rw [if_pos (by omega)]

/-- C8 witness: a 12-byte input keeps only its last 10 bytes. -/
theorem padlsn_truncates_long_inputs_witness :
    PadLSN [9, 8, 1, 2, 3, 4, 5, 6, 7, 8, 9, 10] =
      ([9, 8, 1, 2, 3, 4, 5, 6, 7, 8, 9, 10] : List Nat).drop
        (([9, 8, 1, 2, 3, 4, 5, 6, 7, 8, 9, 10] : List Nat).length - 10) :=
  padlsn_truncates_long_inputs.2 [9, 8, 1, 2, 3, 4, 5, 6, 7, 8, 9, 10] (by decide)

/-- C7: `Load` returns an error iff a DSN is missing or blank after trimming
or one of the four numeric settings resolves to a non-positive configured
value; otherwise it succeeds, and with the optional variables unset the
defaults are a 5-second poll interval, 5000 batch rows, a 15-second
projection interval, a 15-minute recompute window, source name `source1`,
the KPI projection enabled and the latest projection disabled. -/
theorem config_load_validation :
    (∀ env : Env,
      (∃ e, Load env = Except.error e) ↔
        (goTrim (getEnvStr env "SOURCE_DSN") = "" ∨
         goTrim (getEnvStr env "SERVING_DSN") = "" ∨
         getInt env "CDC_BATCH_MAX_ROWS" 5000 ≤ 0 ∨
         int64Wrap (getInt env "POLL_INTERVAL_SECONDS" 5 * nsPerSecond) ≤ 0 ∨
         int64Wrap (getInt env "PROJECTION_INTERVAL_SECONDS" 15 * nsPerSecond) ≤ 0 ∨
         int64Wrap (getInt env "PROJECTION_RECOMPUTE_WINDOW_MINUTES" 15 * nsPerMinute) ≤ 0)) ∧
    (∀ env : Env,
      env "POLL_INTERVAL_SECONDS" = none → env "CDC_BATCH_MAX_ROWS" = none →
      env "PROJECTION_INTERVAL_SECONDS" = none →
      env "PROJECTION_RECOMPUTE_WINDOW_MINUTES" = none →
      env "SOURCE_NAME" = none → env "ENABLE_PROJ_ORDERS_KPI" = none →
      env "ENABLE_PROJ_ORDERS_LATEST" = none → env "LOG_LEVEL" = none →
      goTrim (getEnvStr env "SOURCE_DSN") ≠ "" → goTrim (getEnvStr env "SERVING_DSN") ≠ "" →
      Load env = Except.ok {
        sourceDSN := goTrim (getEnvStr env "SOURCE_DSN")
        servingDSN := goTrim (getEnvStr env "SERVING_DSN")
        pollInterval := 5 * nsPerSecond
        cdcBatchMaxRows := 5000
        projectionInterval := 15 * nsPerSecond
        projectionRecomputeWindow := 15 * nsPerMinute
        enableProjOrdersKPI := true
        enableProjOrdersLatest := false
        logLevel := "info"
        sourceName := "source1" }) := by
  constructor
  · intro env
    unfold Load
    dsimp only
    split_ifs with h1 h2 h3 h4 h5 h6
    · exact ⟨fun _ => Or.inl h1, fun _ => ⟨_, rfl⟩⟩
    · exact ⟨fun _ => Or.inr (Or.inl h2), fun _ => ⟨_, rfl⟩⟩
    · exact ⟨fun _ => Or.inr (Or.inr (Or.inl h3)), fun _ => ⟨_, rfl⟩⟩
    · exact ⟨fun _ => Or.inr (Or.inr (Or.inr (Or.inl h4))), fun _ => ⟨_, rfl⟩⟩
    · exact ⟨fun _ => Or.inr (Or.inr (Or.inr (Or.inr (Or.inl h5)))), fun _ => ⟨_, rfl⟩⟩
    · exact ⟨fun _ => Or.inr (Or.inr (Or.inr (Or.inr (Or.inr h6)))), fun _ => ⟨_, rfl⟩⟩
    · constructor
      · rintro ⟨e, he⟩
        exact absurd he (by simp)
      · rintro (h | h | h | h | h | h) <;> first
          | exact absurd h h1 | exact absurd h h2 | exact absurd h h3
          | exact absurd h h4 | exact absurd h h5 | exact absurd h h6
  · intro env hp hb hpi hw hsn hk hl hg hsrc hserve
    unfold Load
    dsimp only
    have hint : ∀ k fb, env k = none → getInt env k fb = fb := by
      intro k fb hk'
      simp [getInt, getEnvStr, hk', goTrim]
    have hboo : ∀ k fb, env k = none → getBool env k fb = fb := by
      intro k fb hk'
      simp [getBool, getEnvStr, hk', goLower, goTrim]
    have hstr : ∀ k fb, env k = none → getString env k fb = fb := by
      intro k fb hk'
      simp [getString, getEnvStr, hk', goTrim]
    rw [hint _ _ hp, hint _ _ hb, hint _ _ hpi, hint _ _ hw, hboo _ _ hk, hboo _ _ hl,
      hstr _ _ hsn, hstr _ _ hg]
    rw [if_neg hsrc, if_neg hserve, if_neg (by decide), if_neg (by decide), if_neg (by decide),
      if_neg (by decide)]
    simp only [Except.ok.injEq]
    refine Config.mk.injEq .. ▸ ?_
    norm_num [int64Wrap, nsPerSecond, nsPerMinute]
    decide

/-- C7 witness: an environment with only the DSNs set loads successfully
with all documented defaults. -/
theorem config_load_validation_witness :
    Load envDefaultsOnly = Except.ok {
      sourceDSN := goTrim (getEnvStr envDefaultsOnly "SOURCE_DSN")
      servingDSN := goTrim (getEnvStr envDefaultsOnly "SERVING_DSN")
      pollInterval := 5 * nsPerSecond
      cdcBatchMaxRows := 5000
      projectionInterval := 15 * nsPerSecond
      projectionRecomputeWindow := 15 * nsPerMinute
      enableProjOrdersKPI := true
      enableProjOrdersLatest := false
      logLevel := "info"
      sourceName := "source1" } :=
  config_load_validation.2 envDefaultsOnly rfl rfl rfl rfl rfl rfl rfl rfl
    (by decide) (by decide)

/-- C10: a numeric environment variable that is set but does not parse as an
integer makes `getInt` silently return the built-in default instead of
failing, so `Load` succeeds with the default (here `POLL_INTERVAL_SECONDS =
"abc"` yields the 5-second default poll interval). -/
theorem getint_ignores_unparsable :
    (∀ (env : Env) (key : String) (fb : Int),
      goTrim (getEnvStr env key) ≠ "" → atoi (goTrim (getEnvStr env key)) = none →
      getInt env key fb = fb) ∧
    Load envBadPoll = Except.ok {
      sourceDSN := "sqlserver://src"
      servingDSN := "sqlserver://serve"
      pollInterval := 5 * nsPerSecond
      cdcBatchMaxRows := 5000
      projectionInterval := 15 * nsPerSecond
      projectionRecomputeWindow := 15 * nsPerMinute
      enableProjOrdersKPI := true
      enableProjOrdersLatest := false
      logLevel := "info"
      sourceName := "source1" } := by
  constructor
  · intro env key fb hne hnone
    simp only [getInt]
    rw [if_neg hne, hnone]
    rfl
  · rfl

/-- C10 witness: `getInt` on the unparsable value `"abc"` returns the
fallback. -/
theorem getint_ignores_unparsable_witness :
    getInt envBadPoll "POLL_INTERVAL_SECONDS" 5 = 5 :=
  getint_ignores_unparsable.1 envBadPoll "POLL_INTERVAL_SECONDS" 5 (by decide) (by decide)

theorem insertIfAbsentG_of_present {α κ : Type} [DecidableEq κ]
    (sk ik : α → κ) (st : α → α) (tbl : List α) (r : α)
    (h : keyPresentG sk ik tbl r = true) : insertIfAbsentG sk ik st tbl r = tbl := by
  unfold insertIfAbsentG
  rw [if_pos h]

theorem keyPresentG_mono {α κ : Type} [DecidableEq κ]
    (sk ik : α → κ) (st : α → α) (tbl : List α) (r x : α)
    (h : keyPresentG sk ik tbl x = true) :
    keyPresentG sk ik (insertIfAbsentG sk ik st tbl r) x = true := by
  unfold insertIfAbsentG
  split
  · exact h
  · unfold keyPresentG at h ⊢
    rw [List.any_append, h]
    rfl

theorem keyPresentG_after_insert {α κ : Type} [DecidableEq κ]
    (sk ik : α → κ) (st : α → α) (hsk : ∀ r, sk (st r) = ik r) (tbl : List α) (r : α) :
    keyPresentG sk ik (insertIfAbsentG sk ik st tbl r) r = true := by
  unfold insertIfAbsentG
  by_cases h : keyPresentG sk ik tbl r = true
  · rw [if_pos h]
    exact h
  · rw [if_neg h]
    unfold keyPresentG
    rw [List.any_append]
    simp [hsk]

theorem keyPresentG_batch_mono {α κ : Type} [DecidableEq κ]
    (sk ik : α → κ) (st : α → α) (rows : List α) (tbl : List α) (x : α)
    (h : keyPresentG sk ik tbl x = true) :
    keyPresentG sk ik (insertBatchG sk ik st tbl rows) x = true := by
  induction rows generalizing tbl with
  | nil => exact h
  | cons r rest ih => exact ih _ (keyPresentG_mono sk ik st tbl r x h)

theorem keyPresentG_after_batch {α κ : Type} [DecidableEq κ]
    (sk ik : α → κ) (st : α → α) (hsk : ∀ r, sk (st r) = ik r) (rows : List α)
    (tbl : List α) (r : α) (hr : r ∈ rows) :
    keyPresentG sk ik (insertBatchG sk ik st tbl rows) r = true := by
  induction rows generalizing tbl with
  | nil => cases hr
  | cons x rest ih =>
    cases hr with
    | head =>
      exact keyPresentG_batch_mono sk ik st rest _ r
        (keyPresentG_after_insert sk ik st hsk tbl r)
    | tail _ htail => exact ih _ htail

theorem insertBatchG_noop {α κ : Type} [DecidableEq κ]
    (sk ik : α → κ) (st : α → α) (rows : List α) (tbl : List α)
    (h : ∀ r ∈ rows, keyPresentG sk ik tbl r = true) :
    insertBatchG sk ik st tbl rows = tbl := by
  induction rows generalizing tbl with
  | nil => rfl
  | cons x rest ih =>
    have hx := insertIfAbsentG_of_present sk ik st tbl x (h x (List.mem_cons_self x rest))
    show insertBatchG sk ik st (insertIfAbsentG sk ik st tbl x) rest = tbl
    rw [hx]
    exact ih _ (fun r hr => h r (List.mem_cons_of_mem x hr))

theorem insertBatchG_idem {α κ : Type} [DecidableEq κ]
    (sk ik : α → κ) (st : α → α) (hsk : ∀ r, sk (st r) = ik r) (tbl rows : List α) :
    insertBatchG sk ik st (insertBatchG sk ik st tbl rows) rows =
      insertBatchG sk ik st tbl rows :=
  insertBatchG_noop sk ik st rows _ (fun r hr => keyPresentG_after_batch sk ik st hsk rows tbl r hr)

/-- C4: the staging inserts skip any row whose `(lsn, seqval, business key)`
is already present, apply batches in input order (they fold the conditional
single-row insert over the batch), and are therefore idempotent: applying
the same batch twice leaves each staging table exactly as applying it
once. -/
theorem staging_insert_idempotent :
    (∀ (tbl : List OrderChange) (r : OrderChange),
      keyPresentG storedOrderKey incomingOrderKey tbl r = true →
      insertIfAbsentG storedOrderKey incomingOrderKey storeOrderRow tbl r = tbl) ∧
    (∀ tbl rows : List OrderChange,
      InsertOrdersTx tbl rows =
        rows.foldl (insertIfAbsentG storedOrderKey incomingOrderKey storeOrderRow) tbl) ∧
    (∀ tbl rows : List OrderChange,
      InsertOrdersTx (InsertOrdersTx tbl rows) rows = InsertOrdersTx tbl rows) ∧
    (∀ tbl rows : List CustomerChange,
      InsertCustomersTx (InsertCustomersTx tbl rows) rows = InsertCustomersTx tbl rows) ∧
    (∀ tbl rows : List PaymentChange,
      InsertPaymentsTx (InsertPaymentsTx tbl rows) rows = InsertPaymentsTx tbl rows) := by
  refine ⟨insertIfAbsentG_of_present _ _ _, fun tbl rows => rfl, ?_, ?_, ?_⟩
  · exact fun tbl rows =>
      insertBatchG_idem storedOrderKey incomingOrderKey storeOrderRow (fun r => rfl) tbl rows
  · exact fun tbl rows =>
      insertBatchG_idem storedCustomerKey incomingCustomerKey storeCustomerRow (fun r => rfl)
        tbl rows
  · exact fun tbl rows =>
      insertBatchG_idem storedPaymentKey incomingPaymentKey storePaymentRow (fun r => rfl)
        tbl rows

/-- C4 witness: a present row is skipped and a doubly applied singleton
batch equals the singly applied one. -/
theorem staging_insert_idempotent_witness :
    keyPresentG storedOrderKey incomingOrderKey [storeOrderRow orderRowA] orderRowA = true ∧
    insertIfAbsentG storedOrderKey incomingOrderKey storeOrderRow
      [storeOrderRow orderRowA] orderRowA = [storeOrderRow orderRowA] ∧
    InsertOrdersTx (InsertOrdersTx [] [orderRowA]) [orderRowA] = InsertOrdersTx [] [orderRowA] :=
  ⟨by decide, staging_insert_idempotent.1 [storeOrderRow orderRowA] orderRowA (by decide),
    staging_insert_idempotent.2.2.1 [] [orderRowA]⟩

theorem bytesCmp_self (a : List Nat) : bytesCmp a a = 0 := by
  induction a with
  | nil => rfl
  | cons x xs ih => simp [bytesCmp, ih]

theorem bytesCmp_eq_zero_iff {a b : List Nat} : bytesCmp a b = 0 ↔ a = b := by
  induction a generalizing b with
  | nil => cases b <;> simp [bytesCmp]
  | cons x xs ih =>
    cases b with
    | nil => simp [bytesCmp]
    | cons y ys =>
      simp only [bytesCmp, List.cons.injEq]
      split_ifs with h1 h2
      · constructor
        · intro h
          exact absurd h (by decide)
        · rintro ⟨rfl, -⟩
          omega
      · constructor
        · intro h
          exact absurd h (by decide)
        · rintro ⟨rfl, -⟩
          omega
      · have hxy : x = y := by omega
        rw [ih]
        simp [hxy]

theorem bytesCmp_swap (a : List Nat) : ∀ b : List Nat, bytesCmp b a = -bytesCmp a b := by
  induction a with
  | nil => intro b; cases b <;> simp [bytesCmp]
  | cons x xs ih =>
    intro b
    cases b with
    | nil => simp [bytesCmp]
    | cons y ys =>
      simp only [bytesCmp]
      split_ifs <;> first | omega | exact ih ys

theorem bytesCmp_le_trans (a : List Nat) :
    ∀ b c : List Nat, bytesCmp a b ≤ 0 → bytesCmp b c ≤ 0 → bytesCmp a c ≤ 0 := by
  induction a with
  | nil =>
    intro b c _ _
    cases c <;> simp [bytesCmp]
  | cons x xs ih =>
    intro b c h1 h2
    cases b with
    | nil => simp [bytesCmp] at h1
    | cons y ys =>
      cases c with
      | nil => simp [bytesCmp] at h2
      | cons z zs =>
        simp only [bytesCmp] at h1 h2 ⊢
        split_ifs at h1 h2 ⊢ <;> first | omega | exact ih ys zs h1 h2

theorem bytesCmp_lt_trans (a : List Nat) :
    ∀ b c : List Nat, bytesCmp a b < 0 → bytesCmp b c < 0 → bytesCmp a c < 0 := by
  induction a with
  | nil =>
    intro b c h1 h2
    cases c with
    | nil =>
      cases b with
      | nil => simp [bytesCmp] at h1
      | cons y ys => simp [bytesCmp] at h2
    | cons z zs => simp [bytesCmp]
  | cons x xs ih =>
    intro b c h1 h2
    cases b with
    | nil => simp [bytesCmp] at h1
    | cons y ys =>
      cases c with
      | nil => simp [bytesCmp] at h2
      | cons z zs =>
        simp only [bytesCmp] at h1 h2 ⊢
        split_ifs at h1 h2 ⊢ <;> first | omega | exact ih ys zs h1 h2

theorem pairCmp_self (a : (List Nat) × (List Nat)) : pairCmp a a = 0 := by
  simp [pairCmp, bytesCmp_self]

theorem pairCmp_eq_zero_iff {a b : (List Nat) × (List Nat)} : pairCmp a b = 0 ↔ a = b := by
  unfold pairCmp
  split_ifs with h
  · rw [bytesCmp_eq_zero_iff, Prod.ext_iff]
    have h1 : a.1 = b.1 := bytesCmp_eq_zero_iff.mp h
    simp [h1]
  · constructor
    · intro hc
      exact absurd hc h
    · rintro rfl
      exact absurd (bytesCmp_self _) h

theorem pairCmp_swap (a b : (List Nat) × (List Nat)) : pairCmp b a = -pairCmp a b := by
  unfold pairCmp
  rw [bytesCmp_swap a.1 b.1, bytesCmp_swap a.2 b.2]
  split_ifs <;> omega

theorem pairCmp_le_trans (a b c : (List Nat) × (List Nat))
    (h1 : pairCmp a b ≤ 0) (h2 : pairCmp b c ≤ 0) : pairCmp a c ≤ 0 := by
  unfold pairCmp at h1 h2 ⊢
  by_cases hab : bytesCmp a.1 b.1 = 0
  · rw [if_pos hab] at h1
    have e1 : a.1 = b.1 := bytesCmp_eq_zero_iff.mp hab
    by_cases hbc : bytesCmp b.1 c.1 = 0
    · rw [if_pos hbc] at h2
      have e2 : b.1 = c.1 := bytesCmp_eq_zero_iff.mp hbc
      rw [if_pos (by rw [e1, e2]; exact bytesCmp_self _)]
      exact bytesCmp_le_trans a.2 b.2 c.2 h1 h2
    · rw [if_neg hbc] at h2
      have hac : ¬ bytesCmp a.1 c.1 = 0 := by rw [e1]; exact hbc
      rw [if_neg hac, e1]
      exact h2
  · rw [if_neg hab] at h1
    by_cases hbc : bytesCmp b.1 c.1 = 0
    · have e2 : b.1 = c.1 := bytesCmp_eq_zero_iff.mp hbc
      have hac : ¬ bytesCmp a.1 c.1 = 0 := by rw [← e2]; exact hab
      rw [if_neg hac, ← e2]
      exact h1
    · rw [if_neg hbc] at h2
      have hlt : bytesCmp a.1 c.1 < 0 :=
        bytesCmp_lt_trans a.1 b.1 c.1 (lt_of_le_of_ne h1 hab) (lt_of_le_of_ne h2 hbc)
      rw [if_neg (by omega)]
      omega

theorem pickLatest_eq_none {α : Type} (ord : α → (List Nat) × (List Nat)) (l : List α) :
    pickLatest ord l = none ↔ l = [] := by
  cases l with
  | nil => simp [pickLatest]
  | cons r rest =>
    simp only [pickLatest]
    constructor
    · intro h
      split at h
      · exact Option.noConfusion h
      · split_ifs at h
    · intro h
      exact List.noConfusion h

theorem pickLatest_mem {α : Type} (ord : α → (List Nat) × (List Nat)) :
    ∀ (l : List α) (m : α), pickLatest ord l = some m → m ∈ l := by
  intro l
  induction l with
  | nil => intro m h; cases h
  | cons r rest ih =>
    intro m h
    simp only [pickLatest] at h
    split at h
    · cases h
      exact List.mem_cons_self r rest
    · rename_i m' heq
      split_ifs at h
      · cases h
        exact List.mem_cons_self r rest
      · cases h
        exact List.mem_cons_of_mem r (ih _ heq)

theorem pickLatest_max {α : Type} (ord : α → (List Nat) × (List Nat)) :
    ∀ (l : List α) (m : α), pickLatest ord l = some m →
      ∀ r ∈ l, pairCmp (ord r) (ord m) ≤ 0 := by
  intro l
  induction l with
  | nil => intro m h; cases h
  | cons x rest ih =>
    intro m h r hr
    simp only [pickLatest] at h
    split at h
    · rename_i heq
      cases h
      have hnil : rest = [] := (pickLatest_eq_none ord rest).mp heq
      subst hnil
      rcases List.mem_singleton.mp hr with rfl
      simp [pairCmp_self]
    · rename_i m' heq
      split_ifs at h with hgt
      · cases h
        rcases List.mem_cons.mp hr with rfl | hr'
        · simp [pairCmp_self]
        · have hrm : pairCmp (ord r) (ord m') ≤ 0 := ih m' heq r hr'
          have hmx : pairCmp (ord m') (ord x) ≤ 0 := by
            have hs := pairCmp_swap (ord x) (ord m')
            omega
          exact pairCmp_le_trans _ _ _ hrm hmx
      · cases h
        rcases List.mem_cons.mp hr with rfl | hr'
        · omega
        · exact ih _ heq r hr'

theorem collapsePick_sound {α : Type} (key : α → Int) (ord : α → (List Nat) × (List Nat))
    (opOf : α → Nat) (flt : List α) (k : Int) (x : α)
    (h : collapsePick key ord opOf flt k = some x) :
    key x = k ∧ x ∈ flt ∧ opOf x ≠ 1 := by
  unfold collapsePick at h
  split at h
  · exact Option.noConfusion h
  · rename_i m heq
    split_ifs at h with hop
    cases h
    have hmem := pickLatest_mem ord _ _ heq
    rcases List.mem_filter.mp hmem with ⟨hflt, hkey⟩
    exact ⟨of_decide_eq_true hkey, hflt, hop⟩

theorem collapsePick_at_max {α : Type} (key : α → Int) (ord : α → (List Nat) × (List Nat))
    (opOf : α → Nat) (rows : List α) (hd : KeyDistinct key ord rows)
    (m : α) (hm : m ∈ rows) (hinc : includedOp (opOf m) = true)
    (hmax : ∀ s ∈ rows, key s = key m → includedOp (opOf s) = true →
      pairCmp (ord s) (ord m) ≤ 0) :
    collapsePick key ord opOf (rows.filter (fun r => includedOp (opOf r))) (key m) =
      if opOf m = 1 then none else some m := by
  have hmflt : m ∈ rows.filter (fun r => includedOp (opOf r)) := List.mem_filter.mpr ⟨hm, hinc⟩
  have hmS : m ∈ (rows.filter (fun r => includedOp (opOf r))).filter
      (fun r => decide (key r = key m)) :=
    List.mem_filter.mpr ⟨hmflt, by simp⟩
  cases hple : pickLatest ord ((rows.filter (fun r => includedOp (opOf r))).filter
      (fun r => decide (key r = key m))) with
  | none =>
    rw [(pickLatest_eq_none ord _).mp hple] at hmS
    cases hmS
  | some p =>
    have hpmem := pickLatest_mem ord _ _ hple
    rcases List.mem_filter.mp hpmem with ⟨hpflt, hpkey⟩
    rcases List.mem_filter.mp hpflt with ⟨hprows, hpinc⟩
    have hpk : key p = key m := of_decide_eq_true hpkey
    have h1 : pairCmp (ord p) (ord m) ≤ 0 := hmax p hprows hpk hpinc
    have h2 : pairCmp (ord m) (ord p) ≤ 0 := pickLatest_max ord _ _ hple m hmS
    have hzero : pairCmp (ord m) (ord p) = 0 := by
      have hs := pairCmp_swap (ord m) (ord p)
      omega
    have hmp : m = p := hd m hm p hprows hpk.symm (pairCmp_eq_zero_iff.mp hzero)
    subst hmp
    unfold collapsePick
    rw [hple]

theorem mem_filterMap_key_of {κ α : Type} (f : κ → Option α) (key : α → κ)
    (hf : ∀ k x, f k = some x → key x = k) (ks : List κ) (r : α)
    (hr : r ∈ ks.filterMap f) : key r ∈ ks := by
  rcases List.mem_filterMap.mp hr with ⟨k, hk, hfk⟩
  rw [hf k r hfk]
  exact hk

theorem filterMap_filter_key {κ α : Type} [DecidableEq κ] (f : κ → Option α) (key : α → κ)
    (hf : ∀ k x, f k = some x → key x = k) :
    ∀ ks : List κ, ks.Nodup → ∀ (k : κ) (m : α), k ∈ ks → f k = some m →
      (ks.filterMap f).filter (fun r => decide (key r = k)) = [m] := by
  intro ks
  induction ks with
  | nil =>
    intro _ k m hk _
    cases hk
  | cons k' ks' ih =>
    intro hnd k m hk hfk
    have hnotin : k' ∉ ks' := (List.nodup_cons.mp hnd).1
    have hnd' : ks'.Nodup := (List.nodup_cons.mp hnd).2
    rw [List.filterMap_cons]
    cases hfk' : f k' with
    | none =>
      rcases List.mem_cons.mp hk with rfl | hk'
      · rw [hfk] at hfk'
        exact Option.noConfusion hfk'
      · exact ih hnd' k m hk' hfk
    | some x =>
      have hkx : key x = k' := hf k' x hfk'
      rcases List.mem_cons.mp hk with rfl | hk'
      · have hxm : x = m := by
          have hsame := hfk'.symm.trans hfk
          injection hsame
        subst hxm
        rw [List.filter_cons, if_pos (by simp [hkx])]
        have htail : (ks'.filterMap f).filter (fun r => decide (key r = k)) = [] := by
          rw [List.filter_eq_nil_iff]
          intro a ha
          have hmem : key a ∈ ks' := mem_filterMap_key_of f key hf ks' a ha
          simp only [decide_eq_true_eq]
          intro hcon
          exact hnotin (hcon ▸ hmem)
        rw [htail]
      · have hne : ¬ (key x = k) := by
          rw [hkx]
          intro e
          exact hnotin (e ▸ hk')
        rw [List.filter_cons, if_neg (by simp [hne])]
        exact ih hnd' k m hk' hfk

theorem collapseLatest_spec {α : Type} (key : α → Int) (ord : α → (List Nat) × (List Nat))
    (opOf : α → Nat) (rows : List α) (hd : KeyDistinct key ord rows) :
    CollapseSpec key ord opOf rows (collapseLatest key ord opOf rows) := by
  have hf : ∀ k x,
      collapsePick key ord opOf (rows.filter (fun r => includedOp (opOf r))) k = some x →
      key x = k :=
    fun k x h => (collapsePick_sound key ord opOf _ k x h).1
  have hLdef : collapseLatest key ord opOf rows =
      (((rows.filter (fun r => includedOp (opOf r))).map key).dedup).filterMap
        (collapsePick key ord opOf (rows.filter (fun r => includedOp (opOf r)))) := rfl
  refine ⟨?_, ?_, ?_⟩
  · intro r hr
    rw [hLdef] at hr
    rcases List.mem_filterMap.mp hr with ⟨k, _, hfk⟩
    rcases collapsePick_sound key ord opOf _ k r hfk with ⟨_, hrflt, hop⟩
    rcases List.mem_filter.mp hrflt with ⟨hrows, hinc⟩
    exact ⟨hrows, hinc, hop⟩
  · intro k hnone r hr hkey
    rw [hLdef] at hr
    rcases List.mem_filterMap.mp hr with ⟨k', hk', hfk⟩
    rcases collapsePick_sound key ord opOf _ k' r hfk with ⟨hkr, hrflt, _⟩
    rcases List.mem_filter.mp hrflt with ⟨hrows, hinc⟩
    rw [hnone r hrows hkey] at hinc
    exact Bool.noConfusion hinc
  · intro m hm hinc hmax
    have hpick := collapsePick_at_max key ord opOf rows hd m hm hinc hmax
    constructor
    · intro hop1 r hr hkey
      rw [if_pos hop1] at hpick
      rw [hLdef] at hr
      rcases List.mem_filterMap.mp hr with ⟨k', hk', hfk⟩
      have hkr := hf k' r hfk
      have hk'm : k' = key m := by rw [← hkr, hkey]
      rw [hk'm, hpick] at hfk
      exact Option.noConfusion hfk
    · intro hop1
      rw [if_neg hop1] at hpick
      rw [hLdef]
      exact filterMap_filter_key _ key hf _ (List.nodup_dedup _) (key m) m
        (List.mem_dedup.mpr (List.mem_map_of_mem key (List.mem_filter.mpr ⟨hm, hinc⟩))) hpick

/-- C1: collapse-to-latest in both projection transforms.  For every input
list of staged change rows (as pushed into the embedded engine, i.e. with
padded `lsn`/`seqval`) satisfying the staging uniqueness invariant, rows
with `op = 3` are excluded before ranking; among the remaining rows of each
business key the row maximal under bytewise `(lsn, seqval)` order is
selected; the key contributes no output row if that row's `op` is 1
(delete) and exactly that one row otherwise.  This holds for the orders,
customers and payments views of `computeKPIWithDuckDB` and for the orders
and customers views of `computeOrdersLatestWithDuckDB` (the latter are the
same functions). -/
theorem collapse_to_latest_correct :
    (∀ orders : List OrderChange,
      KeyDistinct (fun r => r.orderId) orderOrd (orders.map storeOrderRow) →
      CollapseSpec (fun r => r.orderId) orderOrd (fun r => r.op) (orders.map storeOrderRow)
        (kpiOrdersLatestAll orders) ∧
      latestWorkerOrdersLatest orders = kpiOrdersLatestAll orders) ∧
    (∀ customers : List CustomerChange,
      KeyDistinct (fun r => r.customerId) customerOrd (customers.map storeCustomerRow) →
      CollapseSpec (fun r => r.customerId) customerOrd (fun r => r.op)
        (customers.map storeCustomerRow) (kpiCustomersLatestAll customers) ∧
      latestWorkerCustomersLatest customers = kpiCustomersLatestAll customers) ∧
    (∀ payments : List PaymentChange,
      KeyDistinct (fun r => r.paymentId) paymentOrd (payments.map storePaymentRow) →
      CollapseSpec (fun r => r.paymentId) paymentOrd (fun r => r.op)
        (payments.map storePaymentRow) (kpiPaymentsLatestAll payments)) :=
  ⟨fun _ hd => ⟨collapseLatest_spec _ _ _ _ hd, rfl⟩,
   fun _ hd => ⟨collapseLatest_spec _ _ _ _ hd, rfl⟩,
   fun _ hd => collapseLatest_spec _ _ _ _ hd⟩

/-- C1 witness: a concrete staging history (insert, update-after, delete of
order 100 plus an insert of order 200) satisfies the uniqueness hypothesis
and the collapse specification. -/
theorem collapse_to_latest_correct_witness :
    KeyDistinct (fun r => r.orderId) orderOrd (ordersW.map storeOrderRow) ∧
    CollapseSpec (fun r => r.orderId) orderOrd (fun r => r.op) (ordersW.map storeOrderRow)
      (kpiOrdersLatestAll ordersW) :=
  ⟨by unfold KeyDistinct; decide,
    (collapse_to_latest_correct.1 ordersW (by unfold KeyDistinct; decide)).1⟩

/-- C6: `HasDeltas` errors when the table name is blank after trimming, and
on each staging table returns `true` iff some staged row's `lsn` lies in
the half-open window `from_lsn < lsn ≤ to_lsn` (bounds padded to 10 bytes,
bytewise comparison), `false` otherwise. -/
theorem has_deltas_spec (st : ServingState) (fromL toL : List Nat) :
    (∀ table : String, goTrim table = "" →
      HasDeltas st table fromL toL = Except.error ("table name is required")) ∧
    (HasDeltas st "dbo.stg_cdc_orders" fromL toL = Except.ok true ↔
      ∃ r ∈ st.stgOrders, 0 < bytesCmp r.lsn (PadLSN fromL) ∧ bytesCmp r.lsn (PadLSN toL) ≤ 0) ∧
    (HasDeltas st "dbo.stg_cdc_orders" fromL toL = Except.ok false ↔
      ¬ ∃ r ∈ st.stgOrders,
        0 < bytesCmp r.lsn (PadLSN fromL) ∧ bytesCmp r.lsn (PadLSN toL) ≤ 0) ∧
    (HasDeltas st "dbo.stg_cdc_customers" fromL toL = Except.ok true ↔
      ∃ r ∈ st.stgCustomers,
        0 < bytesCmp r.lsn (PadLSN fromL) ∧ bytesCmp r.lsn (PadLSN toL) ≤ 0) ∧
    (HasDeltas st "dbo.stg_cdc_payments" fromL toL = Except.ok true ↔
      ∃ r ∈ st.stgPayments,
        0 < bytesCmp r.lsn (PadLSN fromL) ∧ bytesCmp r.lsn (PadLSN toL) ≤ 0) := by
  have hords : HasDeltas st "dbo.stg_cdc_orders" fromL toL =
      Except.ok ((st.stgOrders.map (fun r => r.lsn)).any (fun l =>
        decide (0 < bytesCmp l (PadLSN fromL)) && decide (bytesCmp l (PadLSN toL) ≤ 0))) := rfl
  have hcust : HasDeltas st "dbo.stg_cdc_customers" fromL toL =
      Except.ok ((st.stgCustomers.map (fun r => r.lsn)).any (fun l =>
        decide (0 < bytesCmp l (PadLSN fromL)) && decide (bytesCmp l (PadLSN toL) ≤ 0))) := rfl
  have hpay : HasDeltas st "dbo.stg_cdc_payments" fromL toL =
      Except.ok ((st.stgPayments.map (fun r => r.lsn)).any (fun l =>
        decide (0 < bytesCmp l (PadLSN fromL)) && decide (bytesCmp l (PadLSN toL) ≤ 0))) := rfl
  refine ⟨?_, ?_, ?_, ?_, ?_⟩
  · intro table h
    unfold HasDeltas
    rw [if_pos h]
  · rw [hords]
    simp [List.any_map, List.any_eq_true, Function.comp]
  · rw [hords]
    simp [List.any_map, List.any_eq_true, Function.comp]
  · rw [hcust]
    simp [List.any_map, List.any_eq_true, Function.comp]
  · rw [hpay]
    simp [List.any_map, List.any_eq_true, Function.comp]

/-- C6 witness: blank table name errors; the staged order row of `stC3W`
lies inside the window `(zero, 0x01]`. -/
theorem has_deltas_spec_witness :
    HasDeltas stC3W " " ZeroLSN (PadLSN [1]) = Except.error ("table name is required") ∧
    (HasDeltas stC3W "dbo.stg_cdc_orders" ZeroLSN (PadLSN [1]) = Except.ok true ↔
      ∃ r ∈ stC3W.stgOrders,
        0 < bytesCmp r.lsn (PadLSN ZeroLSN) ∧ bytesCmp r.lsn (PadLSN (PadLSN [1])) ≤ 0) :=
  ⟨(has_deltas_spec stC3W ZeroLSN (PadLSN [1])).1 " " (by decide),
    (has_deltas_spec stC3W ZeroLSN (PadLSN [1])).2.1⟩

theorem findLSN_updateLSNTx_self (tbl : List ((String × String) × List Nat))
    (k : String × String) (l : List Nat) (h : findLSN tbl k ≠ none) :
    findLSN (updateLSNTx tbl k l) k = some (PadLSN l) := by
  induction tbl with
  | nil => simp [findLSN] at h
  | cons e rest ih =>
    unfold updateLSNTx
    rw [List.map_cons]
    by_cases he : e.1 = k
    · rw [if_pos he]
      unfold findLSN
      rw [List.find?_cons_of_pos _ (by simp [he])]
      simp
    · rw [if_neg he]
      unfold findLSN
      rw [List.find?_cons_of_neg _ (by simp [he])]
      have h' : findLSN rest k ≠ none := by
        unfold findLSN at h
        rw [List.find?_cons_of_neg _ (by simp [he])] at h
        exact h
      exact ih h'

theorem findLSN_updateLSNTx_ne (tbl : List ((String × String) × List Nat))
    (k' k : String × String) (l : List Nat) (hne : k' ≠ k) :
    findLSN (updateLSNTx tbl k' l) k = findLSN tbl k := by
  induction tbl with
  | nil => rfl
  | cons e rest ih =>
    unfold updateLSNTx
    rw [List.map_cons]
    by_cases he : e.1 = k'
    · rw [if_pos he]
      unfold findLSN
      rw [List.find?_cons_of_neg _ (by simp [he, hne]), List.find?_cons_of_neg _ (by
        simp only [decide_eq_true_eq]
        rw [he]
        exact hne)]
      exact ih
    · rw [if_neg he]
      by_cases hek : e.1 = k
      · unfold findLSN
        rw [List.find?_cons_of_pos _ (by simp [hek]), List.find?_cons_of_pos _ (by simp [hek])]
      · unfold findLSN
        rw [List.find?_cons_of_neg _ (by simp [hek]), List.find?_cons_of_neg _ (by simp [hek])]
        exact ih

theorem findLSN_updateLSNTx_pres (tbl : List ((String × String) × List Nat))
    (k' k : String × String) (l : List Nat) (h : findLSN tbl k ≠ none) :
    findLSN (updateLSNTx tbl k' l) k ≠ none := by
  by_cases he : k' = k
  · subst he
    rw [findLSN_updateLSNTx_self tbl k' l h]
    simp
  · rw [findLSN_updateLSNTx_ne tbl k' k l he]
    exact h

/-- C2: each `persist*` call is one serving-side transaction.  On a
successful commit the new state differs from the old exactly by the
idempotent staging insert and the watermark update to the `lsn` of the
batch's last row (so the stored watermark of the capture becomes that lsn,
padded); on any failure (begin, insert, watermark update, or commit) the
transaction rolls back and the state — staging rows and watermark included
— is unchanged. -/
theorem ingest_persist_atomic (source : String) (st : ServingState) (fp : FailPoint) :
    (∀ (rows : List OrderChange) (h : rows ≠ []),
      ((persistOrders source st rows ((rows.getLast h).lsn) fp).2 = true →
        (persistOrders source st rows ((rows.getLast h).lsn) fp).1 =
          { st with
            stgOrders := InsertOrdersTx st.stgOrders rows,
            watermarks := updateLSNTx st.watermarks (source, "dbo_orders")
              ((rows.getLast h).lsn) } ∧
        (findLSN st.watermarks (source, "dbo_orders") ≠ none →
          findLSN (persistOrders source st rows ((rows.getLast h).lsn) fp).1.watermarks
            (source, "dbo_orders") = some (PadLSN ((rows.getLast h).lsn)))) ∧
      ((persistOrders source st rows ((rows.getLast h).lsn) fp).2 = false →
        (persistOrders source st rows ((rows.getLast h).lsn) fp).1 = st)) ∧
    (∀ (rows : List CustomerChange) (h : rows ≠ []),
      ((persistCustomers source st rows ((rows.getLast h).lsn) fp).2 = true →
        (persistCustomers source st rows ((rows.getLast h).lsn) fp).1 =
          { st with
            stgCustomers := InsertCustomersTx st.stgCustomers rows,
            watermarks := updateLSNTx st.watermarks (source, "dbo_customers")
              ((rows.getLast h).lsn) } ∧
        (findLSN st.watermarks (source, "dbo_customers") ≠ none →
          findLSN (persistCustomers source st rows ((rows.getLast h).lsn) fp).1.watermarks
            (source, "dbo_customers") = some (PadLSN ((rows.getLast h).lsn)))) ∧
      ((persistCustomers source st rows ((rows.getLast h).lsn) fp).2 = false →
        (persistCustomers source st rows ((rows.getLast h).lsn) fp).1 = st)) ∧
    (∀ (rows : List PaymentChange) (h : rows ≠ []),
      ((persistPayments source st rows ((rows.getLast h).lsn) fp).2 = true →
        (persistPayments source st rows ((rows.getLast h).lsn) fp).1 =
          { st with
            stgPayments := InsertPaymentsTx st.stgPayments rows,
            watermarks := updateLSNTx st.watermarks (source, "dbo_payments")
              ((rows.getLast h).lsn) } ∧
        (findLSN st.watermarks (source, "dbo_payments") ≠ none →
          findLSN (persistPayments source st rows ((rows.getLast h).lsn) fp).1.watermarks
            (source, "dbo_payments") = some (PadLSN ((rows.getLast h).lsn)))) ∧
      ((persistPayments source st rows ((rows.getLast h).lsn) fp).2 = false →
        (persistPayments source st rows ((rows.getLast h).lsn) fp).1 = st)) := by
  refine ⟨?_, ?_, ?_⟩ <;> intro rows h <;> cases fp
  all_goals first
    | exact ⟨fun _ => ⟨rfl, fun hwm => findLSN_updateLSNTx_self st.watermarks _ _ hwm⟩,
        fun hfalse => Bool.noConfusion hfalse⟩
    | exact ⟨fun htrue => Bool.noConfusion htrue, fun _ => rfl⟩

/-- C2 witness: a committed singleton batch both inserts and advances the
watermark; a failed commit leaves the state untouched. -/
theorem ingest_persist_atomic_witness :
    (persistOrders "source1" stC2W [orderRowA] orderRowA.lsn FailPoint.noFail).1 =
      { stC2W with
        stgOrders := InsertOrdersTx stC2W.stgOrders [orderRowA],
        watermarks := updateLSNTx stC2W.watermarks ("source1", "dbo_orders") orderRowA.lsn } ∧
    findLSN
      (persistOrders "source1" stC2W [orderRowA] orderRowA.lsn FailPoint.noFail).1.watermarks
      ("source1", "dbo_orders") = some (PadLSN orderRowA.lsn) ∧
    (persistOrders "source1" stC2W [orderRowA] orderRowA.lsn FailPoint.commitFail).1 = stC2W :=
  ⟨(((ingest_persist_atomic "source1" stC2W FailPoint.noFail).1 [orderRowA]
      (by decide)).1 rfl).1,
    (((ingest_persist_atomic "source1" stC2W FailPoint.noFail).1 [orderRowA]
      (by decide)).1 rfl).2 (by decide),
    ((ingest_persist_atomic "source1" stC2W FailPoint.commitFail).1 [orderRowA]
      (by decide)).2 rfl⟩

theorem ckFold_stgCustomers (name : String) (cutoff : List Nat) :
    ∀ (ks : List String) (s : ServingState),
      (ks.foldl (ckFoldStep name cutoff) s).stgCustomers = s.stgCustomers := by
  intro ks
  induction ks with
  | nil => intro s; rfl
  | cons c ks' ih => intro s; exact ih (ckFoldStep name cutoff s c)

theorem ckFold_stgOrders (name : String) (cutoff : List Nat) :
    ∀ (ks : List String) (s : ServingState),
      (ks.foldl (ckFoldStep name cutoff) s).stgOrders = s.stgOrders := by
  intro ks
  induction ks with
  | nil => intro s; rfl
  | cons c ks' ih => intro s; exact ih (ckFoldStep name cutoff s c)

theorem ckFold_stgPayments (name : String) (cutoff : List Nat) :
    ∀ (ks : List String) (s : ServingState),
      (ks.foldl (ckFoldStep name cutoff) s).stgPayments = s.stgPayments := by
  intro ks
  induction ks with
  | nil => intro s; rfl
  | cons c ks' ih => intro s; exact ih (ckFoldStep name cutoff s c)

theorem ckFold_watermarks (name : String) (cutoff : List Nat) :
    ∀ (ks : List String) (s : ServingState),
      (ks.foldl (ckFoldStep name cutoff) s).watermarks = s.watermarks := by
  intro ks
  induction ks with
  | nil => intro s; rfl
  | cons c ks' ih => intro s; exact ih (ckFoldStep name cutoff s c)

theorem ckFold_projKPI (name : String) (cutoff : List Nat) :
    ∀ (ks : List String) (s : ServingState),
      (ks.foldl (ckFoldStep name cutoff) s).projKPI = s.projKPI := by
  intro ks
  induction ks with
  | nil => intro s; rfl
  | cons c ks' ih => intro s; exact ih (ckFoldStep name cutoff s c)

theorem ckFold_projOrdersLatest (name : String) (cutoff : List Nat) :
    ∀ (ks : List String) (s : ServingState),
      (ks.foldl (ckFoldStep name cutoff) s).projOrdersLatest = s.projOrdersLatest := by
  intro ks
  induction ks with
  | nil => intro s; rfl
  | cons c ks' ih => intro s; exact ih (ckFoldStep name cutoff s c)

theorem ckFold_metadata (name : String) (cutoff : List Nat) :
    ∀ (ks : List String) (s : ServingState),
      (ks.foldl (ckFoldStep name cutoff) s).metadata = s.metadata := by
  intro ks
  induction ks with
  | nil => intro s; rfl
  | cons c ks' ih => intro s; exact ih (ckFoldStep name cutoff s c)

theorem ckFold_find_of_not_mem (name : String) (cutoff : List Nat) :
    ∀ (ks : List String) (s : ServingState) (c : String), c ∉ ks →
      findLSN ((ks.foldl (ckFoldStep name cutoff) s).checkpoints) (name, c) =
        findLSN s.checkpoints (name, c) := by
  intro ks
  induction ks with
  | nil => intro s c _; rfl
  | cons k ks' ih =>
    intro s c hc
    have hck : c ≠ k := fun e => hc (e ▸ List.mem_cons_self k ks')
    have hc' : c ∉ ks' := fun e => hc (List.mem_cons_of_mem k e)
    have hstep : findLSN (ckFoldStep name cutoff s k).checkpoints (name, c) =
        findLSN s.checkpoints (name, c) :=
      findLSN_updateLSNTx_ne s.checkpoints (name, k) (name, c) cutoff
        (fun e => hck (congrArg Prod.snd e).symm)
    calc findLSN ((ks'.foldl (ckFoldStep name cutoff) (ckFoldStep name cutoff s k)).checkpoints)
          (name, c)
        = findLSN (ckFoldStep name cutoff s k).checkpoints (name, c) :=
          ih (ckFoldStep name cutoff s k) c hc'
      _ = findLSN s.checkpoints (name, c) := hstep

theorem ckFold_find_of_mem (name : String) (cutoff : List Nat) :
    ∀ (ks : List String) (s : ServingState) (c : String), c ∈ ks →
      findLSN s.checkpoints (name, c) ≠ none →
      findLSN ((ks.foldl (ckFoldStep name cutoff) s).checkpoints) (name, c) =
        some (PadLSN cutoff) := by
  intro ks
  induction ks with
  | nil =>
    intro s c hc
    cases hc
  | cons k ks' ih =>
    intro s c hc hpres
    by_cases hc' : c ∈ ks'
    · refine ih (ckFoldStep name cutoff s k) c hc' ?_
      exact findLSN_updateLSNTx_pres s.checkpoints (name, k) (name, c) cutoff hpres
    · have hck : c = k := by
        rcases List.mem_cons.mp hc with e | e
        · exact e
        · exact absurd e hc'
      subst hck
      calc findLSN ((ks'.foldl (ckFoldStep name cutoff)
              (ckFoldStep name cutoff s c)).checkpoints) (name, c)
          = findLSN (ckFoldStep name cutoff s c).checkpoints (name, c) :=
            ckFold_find_of_not_mem name cutoff ks' (ckFoldStep name cutoff s c) c hc'
        _ = some (PadLSN cutoff) :=
            findLSN_updateLSNTx_self s.checkpoints (name, c) cutoff hpres

theorem find_map_update {β : Type} (p : String) (meta : β) :
    ∀ tbl : List (String × β), tbl.any (fun e => decide (e.1 = p)) = true →
      ((tbl.map (fun e => if e.1 = p then (e.1, meta) else e)).find?
        (fun e => decide (e.1 = p))).map (fun e => e.2) = some meta := by
  intro tbl
  induction tbl with
  | nil =>
    intro hany
    simp at hany
  | cons e rest ih =>
    intro hany
    rw [List.map_cons]
    by_cases he : e.1 = p
    · rw [if_pos he]
      rw [List.find?_cons_of_pos _ (by simp [he])]
      simp
    · rw [if_neg he]
      rw [List.find?_cons_of_neg _ (by simp [he])]
      apply ih
      simpa [List.any_cons, he] using hany

theorem find_upsertMeta (tbl : List (String × ProjMetadata)) (p : String) (cutoff : List Nat)
    (status : String) (lastError : Option String) :
    ((UpsertProjectionMetadataTx tbl p cutoff status lastError).find?
      (fun e => decide (e.1 = p))).map (fun e => e.2) =
      some { asOfLSN := some (PadLSN cutoff), status := status,
             lastError := nullableErrString lastError } := by
  unfold UpsertProjectionMetadataTx
  by_cases hany : tbl.any (fun e => decide (e.1 = p)) = true
  · rw [if_pos hany]
    exact find_map_update p _ tbl hany
  · rw [if_neg hany]
    have hnone : tbl.find? (fun e => decide (e.1 = p)) = none := by
      rw [List.find?_eq_none]
      intro e he hpe
      exact hany (List.any_eq_true.mpr ⟨e, he, hpe⟩)
    rw [List.find?_append, hnone]
    simp

theorem mem_insSortedBy {α : Type} (le : α → α → Bool) (x a : α) :
    ∀ l : List α, a ∈ insSortedBy le x l ↔ a = x ∨ a ∈ l := by
  intro l
  induction l with
  | nil => simp [insSortedBy]
  | cons y ys ih =>
    unfold insSortedBy
    split_ifs
    · simp [List.mem_cons]
    · simp only [List.mem_cons, ih]
      tauto

theorem mem_sortByLe {α : Type} (le : α → α → Bool) (a : α) :
    ∀ l : List α, a ∈ sortByLe le l ↔ a ∈ l := by
  intro l
  induction l with
  | nil => simp [sortByLe]
  | cons x xs ih =>
    show a ∈ insSortedBy le x (sortByLe le xs) ↔ _
    rw [mem_insSortedBy, ih]
    simp [List.mem_cons]

theorem kpiRunOnce_commits (source : String) (now w : Int) (st : ServingState)
    (cutoff : List Nat)
    (hcut : GetMinIngestionWatermark st.watermarks source kpiCaptures = Except.ok cutoff)
    (hnz : IsZeroLSN cutoff = false)
    (hdelta : hasDeltasSinceCheckpoint st
      (GetProjectionCheckpoints st.checkpoints ProjectionOrdersKPI kpiCaptures) cutoff =
      Except.ok true) :
    kpiRunOnce source now w st =
      kpiApplyCommit st
        (GetProjectionCheckpoints st.checkpoints ProjectionOrdersKPI kpiCaptures) cutoff
        (floorToMinute now - w) := by
  unfold kpiRunOnce
  rw [hcut]
  simp only [hnz, Bool.false_eq_true, if_false, hdelta, if_true]

theorem kpiApplyCommit_projKPI (st : ServingState) (cps : List (String × List Nat))
    (cutoff : List Nat) (windowStart : Int) :
    (kpiApplyCommit st cps cutoff windowStart).projKPI =
      st.projKPI.filter (fun (r : KPIOutputRow) => decide (r.minuteBucket < windowStart)) ++
        computeKPIWithDuckDB windowStart (LoadOrdersAll st) (LoadCustomersAll st)
          (LoadPaymentsWindow st windowStart) :=
  ckFold_projKPI ProjectionOrdersKPI cutoff (SortedKeys cps) _

theorem kpiApplyCommit_metadata (st : ServingState) (cps : List (String × List Nat))
    (cutoff : List Nat) (windowStart : Int) :
    ((kpiApplyCommit st cps cutoff windowStart).metadata.find?
      (fun e => decide (e.1 = ProjectionOrdersKPI))).map (fun e => e.2) =
      some { asOfLSN := some (PadLSN cutoff), status := "OK", lastError := none } :=
  find_upsertMeta _ ProjectionOrdersKPI cutoff ("OK") none

theorem kpiApplyCommit_checkpoints (st : ServingState) (cps : List (String × List Nat))
    (cutoff : List Nat) (windowStart : Int) (c : String)
    (hc : c ∈ cps.map (fun e => e.1))
    (hpres : findLSN st.checkpoints (ProjectionOrdersKPI, c) ≠ none) :
    findLSN (kpiApplyCommit st cps cutoff windowStart).checkpoints (ProjectionOrdersKPI, c) =
      some (PadLSN cutoff) := by
  refine ckFold_find_of_mem ProjectionOrdersKPI cutoff (SortedKeys cps) _ c ?_ hpres
  exact (mem_sortByLe strLeB c _).mpr hc

/-- C3: a successful KPI aggregate cycle commits, in one transaction,
exactly this: projection rows with `minute_bucket >= window_start` are
deleted and the computed KPI rows inserted (a row survives iff it is an old
row below the window start or a computed row); every bound capture's
checkpoint (`dbo_customers`, `dbo_orders`, `dbo_payments`) becomes the
single cutoff LSN taken at cycle start from `GetMinIngestionWatermark`;
projection metadata is upserted to `as_of_lsn = cutoff`, `status = OK`,
`last_error = NULL`; and nothing else in the serving store changes. -/
theorem kpi_projection_commit (source : String) (now w : Int) (st : ServingState)
    (cutoff : List Nat)
    (hcut : GetMinIngestionWatermark st.watermarks source kpiCaptures = Except.ok cutoff)
    (hnz : IsZeroLSN cutoff = false)
    (hdelta : hasDeltasSinceCheckpoint st
      (GetProjectionCheckpoints st.checkpoints ProjectionOrdersKPI kpiCaptures) cutoff =
      Except.ok true)
    (hck : ∀ c ∈ kpiCaptures, findLSN st.checkpoints (ProjectionOrdersKPI, c) ≠ none) :
    KPICommitSpec st now w cutoff (kpiRunOnce source now w st) := by
  rw [kpiRunOnce_commits source now w st cutoff hcut hnz hdelta]
  have hkeys : (GetProjectionCheckpoints st.checkpoints ProjectionOrdersKPI kpiCaptures).map
      (fun e => e.1) = kpiCaptures := rfl
  refine ⟨?_, ?_, ?_, ?_, ?_, ?_, ?_, ?_⟩
  · intro r
    rw [kpiApplyCommit_projKPI]
    simp [List.mem_append, List.mem_filter, decide_eq_true_eq]
  · intro c hc
    exact kpiApplyCommit_checkpoints st _ cutoff _ c (hkeys.symm ▸ hc) (hck c hc)
  · exact kpiApplyCommit_metadata st _ cutoff _
  · exact ckFold_stgCustomers ProjectionOrdersKPI cutoff (SortedKeys _) _
  · exact ckFold_stgOrders ProjectionOrdersKPI cutoff (SortedKeys _) _
  · exact ckFold_stgPayments ProjectionOrdersKPI cutoff (SortedKeys _) _
  · exact ckFold_watermarks ProjectionOrdersKPI cutoff (SortedKeys _) _
  · exact ckFold_projOrdersLatest ProjectionOrdersKPI cutoff (SortedKeys _) _

/-- C3 witness: a concrete serving state with one staged order, equal
nonzero watermarks on all three captures and bootstrapped zero checkpoints
satisfies every hypothesis, and the commit specification holds of the
cycle's result. -/
theorem kpi_projection_commit_witness :
    KPICommitSpec stC3W 0 900000000000 (PadLSN [1])
      (kpiRunOnce "source1" 0 900000000000 stC3W) :=
  kpi_projection_commit "source1" 0 900000000000 stC3W (PadLSN [1]) rfl rfl rfl (by decide)

theorem minBytes_eq_none : ∀ l : List (List Nat), minBytes l = none ↔ l = [] := by
  intro l
  cases l with
  | nil => simp [minBytes]
  | cons v vs =>
    simp only [minBytes]
    constructor
    · intro h
      split at h
      · exact Option.noConfusion h
      · split_ifs at h
    · intro h
      exact List.noConfusion h

theorem minBytes_le_all : ∀ (l : List (List Nat)) (m : List Nat), minBytes l = some m →
    ∀ v ∈ l, bytesCmp m v ≤ 0 := by
  intro l
  induction l with
  | nil => intro m h; cases h
  | cons x vs ih =>
    intro m h v hv
    simp only [minBytes] at h
    split at h
    · rename_i heq
      cases h
      have hnil : vs = [] := (minBytes_eq_none vs).mp heq
      subst hnil
      rcases List.mem_singleton.mp hv with rfl
      rw [bytesCmp_self]
    · rename_i m' heq
      split_ifs at h with hle
      · cases h
        rcases List.mem_cons.mp hv with rfl | hv'
        · rw [bytesCmp_self]
        · exact bytesCmp_le_trans _ m' v hle (ih m' heq v hv')
      · cases h
        rcases List.mem_cons.mp hv with rfl | hv'
        · have hs := bytesCmp_swap v m
          omega
        · exact ih _ heq v hv'

theorem bytesCmp_le_nil {m : List Nat} (h : bytesCmp m [] ≤ 0) : m = [] := by
  cases m with
  | nil => rfl
  | cons x xs => simp [bytesCmp] at h

theorem getMin_zero_of_neverIngested (tbl : List ((String × String) × List Nat))
    (source : String) (captures : List String) (hne : captures ≠ [])
    (h : WatermarksNeverIngested tbl source captures) :
    GetMinIngestionWatermark tbl source captures = Except.ok ZeroLSN := by
  unfold GetMinIngestionWatermark
  rw [if_neg hne]
  rcases h with hempty | ⟨e, he, hsrc, hcap, hval⟩
  · rw [hempty]
    rfl
  · have hmem : ([] : List Nat) ∈ (tbl.filter (fun e =>
        decide (e.1.1 = source) && decide (e.1.2 ∈ captures))).map (fun e => e.2) := by
      refine List.mem_map.mpr ⟨e, ?_, hval⟩
      exact List.mem_filter.mpr ⟨he, by simp [hsrc, hcap]⟩
    cases hmb : minBytes ((tbl.filter (fun e =>
        decide (e.1.1 = source) && decide (e.1.2 ∈ captures))).map (fun e => e.2)) with
    | none => rfl
    | some m =>
      have hm : m = [] := bytesCmp_le_nil (minBytes_le_all _ m hmb [] hmem)
      subst hm
      rfl

theorem kpiRunOnce_skip_zero (source : String) (now w : Int) (st : ServingState)
    (r : List Nat)
    (h : GetMinIngestionWatermark st.watermarks source kpiCaptures = Except.ok r)
    (hz : IsZeroLSN r = true) : kpiRunOnce source now w st = st := by
  unfold kpiRunOnce
  rw [h]
  simp [hz]

theorem latestRunOnce_skip_zero (source : String) (st : ServingState) (r : List Nat)
    (h : GetMinIngestionWatermark st.watermarks source latestCaptures = Except.ok r)
    (hz : IsZeroLSN r = true) : ordersLatestRunOnce source st = st := by
  unfold ordersLatestRunOnce
  rw [h]
  simp [hz]

/-- C9: `IsZeroLSN` holds of nil/empty values and exactly of the values
whose padded form is ten zero bytes; an absent watermark row makes
`GetIngestionWatermark` return the zero LSN; the ingestor's from-LSN
computation treats a zero last-LSN as never ingested (it restarts at the
window's minimum); and a projection worker whose bound captures have no
watermark rows, or an empty stored watermark value, computes a zero cutoff
and skips the cycle, leaving the serving state untouched. -/
theorem zero_lsn_never_ingested :
    IsZeroLSN [] = true ∧
    (∀ l : List Nat, IsZeroLSN l = true ↔ PadLSN l = ZeroLSN) ∧
    (∀ (tbl : List ((String × String) × List Nat)) (source capture : String),
      findLSN tbl (source, capture) = none →
      GetIngestionWatermark tbl source capture = ZeroLSN) ∧
    (∀ (increment : List Nat → List Nat) (lastLSN minLSN : List Nat),
      IsZeroLSN lastLSN = true → computeFromLSN increment lastLSN minLSN = PadLSN minLSN) ∧
    (∀ (source : String) (now w : Int) (st : ServingState),
      WatermarksNeverIngested st.watermarks source kpiCaptures →
      kpiRunOnce source now w st = st) ∧
    (∀ (source : String) (st : ServingState),
      WatermarksNeverIngested st.watermarks source latestCaptures →
      ordersLatestRunOnce source st = st) := by
  refine ⟨rfl, ?_, ?_, ?_, ?_, ?_⟩
  · intro l
    unfold IsZeroLSN
    split_ifs with hlen
    · have : l = [] := List.length_eq_zero.mp hlen
      subst this
      simp only [true_iff]
      rfl
    · simp
  · intro tbl source capture h
    unfold GetIngestionWatermark
    rw [h]
  · intro increment lastLSN minLSN h
    unfold computeFromLSN
    rw [h]
    rfl
  · intro source now w st h
    exact kpiRunOnce_skip_zero source now w st ZeroLSN
      (getMin_zero_of_neverIngested st.watermarks source kpiCaptures (by decide) h) rfl
  · intro source st h
    exact latestRunOnce_skip_zero source st ZeroLSN
      (getMin_zero_of_neverIngested st.watermarks source latestCaptures (by decide) h) rfl

/-- C9 witness: a state whose only watermark row stores an empty value
makes both projection workers skip; the package's zero tests evaluate at
concrete inputs. -/
theorem zero_lsn_never_ingested_witness :
    IsZeroLSN [] = true ∧
    (IsZeroLSN [0, 0] = true ↔ PadLSN [0, 0] = ZeroLSN) ∧
    GetIngestionWatermark [] "source1" "dbo_orders" = ZeroLSN ∧
    computeFromLSN (fun l => l) [] [1] = PadLSN [1] ∧
    kpiRunOnce "source1" 0 900000000000 stC9W = stC9W ∧
    ordersLatestRunOnce "source1" stC9W = stC9W :=
  ⟨zero_lsn_never_ingested.1,
   zero_lsn_never_ingested.2.1 [0, 0],
   zero_lsn_never_ingested.2.2.1 [] "source1" "dbo_orders" rfl,
   zero_lsn_never_ingested.2.2.2.1 (fun l => l) [] [1] rfl,
   zero_lsn_never_ingested.2.2.2.2.1 "source1" 0 900000000000 stC9W
     (by unfold WatermarksNeverIngested; decide),
   zero_lsn_never_ingested.2.2.2.2.2 "source1" stC9W
     (by unfold WatermarksNeverIngested; decide)⟩
